import Mathlib

/-!
# Study-group front end: the task store

A shallow embedding of `assets/js/js/model/task.js` (class `TaskModel`) and of the
part of `assets/js/js/utils/api.js` it calls, followed by theorems about them.

JavaScript values are kept as a small sum type, objects as association lists of
own properties, the clock and the other ambient sources of values as an explicit
environment, and each asynchronous store operation as a function from the
backend's answer and the store to the new store, the result, the calls issued
on `window.api` and the events dispatched.
-/

set_option autoImplicit false

namespace StudyGroup

/-! ## JavaScript values -/

/-- A JavaScript value as the store sees it. Integral numbers are `num`, a finite
non-integral number is `frac k` (the code `k` identifies the number), and an
object that is not a function and is only passed around is a reference `obj r`.
`builtin k` is the function or object found under key `k` of `Object.prototype`. -/
inductive JsVal where
  | undefined
  | null
  | nan
  | bool (b : Bool)
  | num (n : Int)
  | frac (k : Nat)
  | str (s : String)
  | obj (ref : Nat)
  | builtin (key : String)
  deriving DecidableEq, Repr

namespace JsVal

/-- ToBoolean: the falsy values are undefined, null, NaN, false, 0 and the empty string. -/
def truthy : JsVal → Bool
  | undefined => false
  | null => false
  | nan => false
  | bool b => b
  | num n => n != 0
  | frac _ => true
  | str s => s != ""
  | obj _ => true
  | builtin _ => true

/-- The operator `a || b`. -/
def orElse (a b : JsVal) : JsVal := if a.truthy then a else b

/-- The operator `a && b`. -/
def andThen (a b : JsVal) : JsVal := if a.truthy then b else a

/-- Strict equality `a === b`: equal values of one type, and NaN equal to nothing. -/
def strictEq (a b : JsVal) : Bool :=
  match a, b with
  | nan, _ => false
  | _, nan => false
  | a, b => decide (a = b)

end JsVal

/-- An object whose own properties are data properties, in insertion order. -/
abbrev JsObj := List (String × JsVal)

/-- Property read `o[k]` on a plain data object: the first entry under `k`, else undefined. -/
def JsObj.get (o : JsObj) (k : String) : JsVal :=
  match o.lookup k with
  | some v => v
  | none => JsVal.undefined

/-- Property write `o[k] = v` on a plain data object: an existing entry is replaced in
place, a new key is added at the end. -/
def JsObj.set : JsObj → String → JsVal → JsObj
  | [], k, v => [(k, v)]
  | (k0, v0) :: rest, k, v =>
    if k0 = k then (k, v) :: rest else (k0, v0) :: JsObj.set rest k v

/-- The own keys of a data object, in order. -/
def JsObj.keys (o : JsObj) : List String := o.map Prod.fst

/-- The value a thrown `Error` carries: its message. -/
structure JsError where
  message : String
  deriving DecidableEq, Repr

/-! ## The environment -/

/-- What the code reads from outside the store during one synchronous step. -/
structure Env where
  /-- The time value of `new Date()`, in milliseconds. -/
  now : Int
  /-- The time value of `new Date(v)`; `none` is an invalid date (NaN). -/
  parseDate : JsVal → Option Int
  /-- The number `Date.now() + Math.random()` computed for the record at index `i`. -/
  freshId : Nat → JsVal
  /-- The string `new Date().toISOString()`. -/
  isoNow : String
  /-- ToString of the object behind a reference, as used for a property key. -/
  objKey : Nat → String

/-! ## Tasks -/

/-- The four entries of `this.statuses`. -/
def statuses : List JsVal :=
  [JsVal.str "待处理", JsVal.str "进行中", JsVal.str "已完成", JsVal.str "已延期"]

/-- The three entries of `this.priorities`. -/
def priorities : List JsVal := [JsVal.str "低", JsVal.str "中", JsVal.str "高"]

/-- A task object of the store. `props` are its own data properties. `accessors` tells
whether it still is the object literal built by `formatTasks`, which carries the three
getters `isOverdue`, `statusColor` and `priorityColor` after its ten data properties. -/
structure Task where
  props : JsObj
  accessors : Bool
  deriving DecidableEq, Repr

/-- The keys of `Object.prototype`, which every object literal inherits. -/
def objectPrototypeKeys : List String :=
  ["constructor", "__defineGetter__", "__defineSetter__", "hasOwnProperty",
   "__lookupGetter__", "__lookupSetter__", "isPrototypeOf", "propertyIsEnumerable",
   "toString", "valueOf", "__proto__", "toLocaleString"]

/-- ToPropertyKey of a value used in `colors[v]`. -/
def propertyKey (env : Env) : JsVal → Option String
  | JsVal.undefined => some "undefined"
  | JsVal.null => some "null"
  | JsVal.nan => some "NaN"
  | JsVal.bool b => some (if b then "true" else "false")
  | JsVal.num n => some (toString n)
  | JsVal.frac _ => none
  | JsVal.str s => some s
  | JsVal.obj r => some (env.objKey r)
  | JsVal.builtin _ => none

/-- Lookup `colors[v]` in an object literal `colors`: own entries first, then
`Object.prototype`. A key that is neither (every non-integral number and every
function text is such a key) gives undefined. -/
def colorLookup (env : Env) (colors : JsObj) (v : JsVal) : JsVal :=
  match propertyKey env v with
  | none => JsVal.undefined
  | some k =>
    match colors.lookup k with
    | some c => c
    | none => if k ∈ objectPrototypeKeys then JsVal.builtin k else JsVal.undefined

/-- The table inside the getter `statusColor`. -/
def statusColors : JsObj :=
  [("待处理", JsVal.str "#95a5a6"), ("进行中", JsVal.str "#3498db"),
   ("已完成", JsVal.str "#2ecc71"), ("已延期", JsVal.str "#e74c3c")]

/-- The table inside the getter `priorityColor`. -/
def priorityColors : JsObj :=
  [("低", JsVal.str "#2ecc71"), ("中", JsVal.str "#f39c12"), ("高", JsVal.str "#e74c3c")]

/-- The getter `isOverdue` of a formatted task:
`if (!this.dueDate) return false; return new Date(this.dueDate) < new Date();`.
A comparison with an invalid date is false. -/
def isOverdueGetter (env : Env) (props : JsObj) : JsVal :=
  if !(props.get "dueDate").truthy then JsVal.bool false
  else
    match env.parseDate (props.get "dueDate") with
    | none => JsVal.bool false
    | some due => JsVal.bool (decide (due < env.now))

/-- The getter `statusColor`: `colors[this.status] || '#95a5a6'`. -/
def statusColorGetter (env : Env) (props : JsObj) : JsVal :=
  (colorLookup env statusColors (props.get "status")).orElse (JsVal.str "#95a5a6")

/-- The getter `priorityColor`: `colors[this.priority] || '#f39c12'`. -/
def priorityColorGetter (env : Env) (props : JsObj) : JsVal :=
  (colorLookup env priorityColors (props.get "priority")).orElse (JsVal.str "#f39c12")

/-- Property read `task[k]`: a getter of the literal when the task still has its
accessors, an own data property otherwise. -/
def Task.get (env : Env) (t : Task) (k : String) : JsVal :=
  if t.accessors then
    if k = "isOverdue" then isOverdueGetter env t.props
    else if k = "statusColor" then statusColorGetter env t.props
    else if k = "priorityColor" then priorityColorGetter env t.props
    else t.props.get k
  else t.props.get k

/-- The read `task.id`. -/
def Task.id (t : Task) : JsVal := t.props.get "id"

/-- The read `task.status`. -/
def Task.status (t : Task) : JsVal := t.props.get "status"

/-- The read `task.priority`. -/
def Task.priority (t : Task) : JsVal := t.props.get "priority"

/-- The read `task.dueDate`. -/
def Task.dueDate (t : Task) : JsVal := t.props.get "dueDate"

/-- The read `task.isOverdue`. -/
def Task.isOverdue (env : Env) (t : Task) : JsVal := t.get env "isOverdue"

/-- The assignment `task.status = status` (a data property on every task). -/
def Task.setStatus (t : Task) (status : JsVal) : Task :=
  { t with props := t.props.set "status" status }

/-- The arrow function of `formatTasks`, applied to the raw record at index `i`. -/
def formatTask (env : Env) (i : Nat) (task : JsObj) : Task :=
  { props :=
      [("id", (task.get "id").orElse (env.freshId i)),
       ("title", (task.get "title").orElse (JsVal.str "未命名任务")),
       ("description", (task.get "description").orElse (JsVal.str "")),
       ("status", (task.get "status").orElse (JsVal.str "待处理")),
       ("priority", (task.get "priority").orElse (JsVal.str "中")),
       ("assignee", (task.get "assignee").orElse (JsVal.str "未分配")),
       ("dueDate", ((task.get "due_date").orElse (task.get "dueDate")).orElse JsVal.null),
       ("createdAt",
          ((task.get "created_at").orElse (task.get "createdAt")).orElse (JsVal.str env.isoNow)),
       ("groupId", (task.get "group_id").orElse (task.get "groupId")),
       ("creator", (task.get "creator").orElse (JsVal.str "未知"))],
    accessors := true }

/-- Helper of `formatTasks`: the map, with the index of the current record. -/
def formatTasksFrom (env : Env) : Nat → List JsObj → List Task
  | _, [] => []
  | i, task :: rest => formatTask env i task :: formatTasksFrom env (i + 1) rest

/-- The method `formatTasks(tasks)`: `tasks.map(task => ({...}))` over an array of records. -/
def formatTasks (env : Env) (tasks : List JsObj) : List Task := formatTasksFrom env 0 tasks

/-! ## Double-precision arithmetic of the progress figure -/

/-- A finite non-negative binary64 number, held exactly as the fraction `num / den`. -/
structure Double where
  num : Nat
  den : Nat
  deriving DecidableEq, Repr

/-- Search for powers of two `a`, `b` with `2^52 ≤ (n * a) / (d * b) < 2^53`. -/
def binade : Nat → Nat → Nat → Nat → Nat → Nat × Nat
  | 0, _, _, a, b => (a, b)
  | fuel + 1, n, d, a, b =>
    if n * a < d * b * 2 ^ 52 then binade fuel n d (2 * a) b
    else if d * b * 2 ^ 53 ≤ n * a then binade fuel n d a (2 * b)
    else (a, b)

/-- The integer nearest to `n / d`, a tie going to the even one. -/
def roundHalfEven (n d : Nat) : Nat :=
  let q := n / d
  let r := n % d
  if 2 * r < d then q
  else if d < 2 * r then q + 1
  else if q % 2 = 0 then q else q + 1

/-- The binary64 number nearest to the positive rational `n / d` (round to nearest,
ties to even, 53 significant bits); exponent range is not limited, the values met
here lie between `2^-53` and `100`. -/
def Double.ofRatio (n d : Nat) : Double :=
  if n = 0 then { num := 0, den := 1 }
  else
    let s := binade (n + d + 54) n d 1 1
    { num := roundHalfEven (n * s.1) (d * s.2) * s.2, den := s.1 }

/-- The quotient `a / b` of two integers that are exact as doubles. -/
def Double.div (a b : Nat) : Double := Double.ofRatio a b

/-- The product `x * c` of a double and an integer that is exact as a double. -/
def Double.mul (x : Double) (c : Nat) : Double := Double.ofRatio (x.num * c) x.den

/-- The function `Math.round` on a non-negative double: the nearest integer, a half
going up. -/
def Math.round (x : Double) : Nat := (2 * x.num + x.den) / (2 * x.den)

/-! ## The store -/

/-- The state of `TaskModel`: the task list of the current group. -/
structure TaskModel where
  tasks : List Task
  deriving DecidableEq, Repr

/-- The constructor: an empty list. -/
def TaskModel.new : TaskModel := { tasks := [] }

/-- The method `getTasks()`. -/
def TaskModel.getTasks (m : TaskModel) : List Task := m.tasks

/-- The method `getTasksByStatus(status)`. -/
def TaskModel.getTasksByStatus (m : TaskModel) (status : JsVal) : List Task :=
  m.tasks.filter (fun task => task.status.strictEq status)

/-- The object returned by `getTaskStats()`. -/
structure Stats where
  total : Nat
  todo : Nat
  doing : Nat
  done : Nat
  overdue : Nat
  progress : Nat
  deriving DecidableEq, Repr

/-- The method `getTaskStats()`. -/
def TaskModel.getTaskStats (env : Env) (m : TaskModel) : Stats :=
  let total := m.tasks.length
  let done := (m.getTasksByStatus (JsVal.str "已完成")).length
  { total := total,
    todo := (m.getTasksByStatus (JsVal.str "待处理")).length,
    doing := (m.getTasksByStatus (JsVal.str "进行中")).length,
    done := done,
    overdue := (m.tasks.filter (fun task =>
      ((task.isOverdue env).andThen
        (JsVal.bool (!(task.status.strictEq (JsVal.str "已完成"))))).truthy)).length,
    progress := if total > 0 then Math.round ((Double.div done total).mul 100) else 0 }

/-- The exact figure the progress stands for: `100 * done / total` rounded to the
nearest integer, a half going up. -/
def exactPercent (done total : Nat) : Nat := (200 * done + total) / (2 * total)

/-! ## The backend seen from the store -/

/-- A call the store makes on `window.api`. -/
inductive ApiCall where
  | getGroupTasks (groupId : JsVal)
  | createTask (taskData : JsObj)
  | updateTaskStatus (taskId status : JsVal)
  deriving DecidableEq, Repr

/-- What a call on `window.api` resolves to: `apiRequest` returns `result.data || {}`,
or the whole parsed result when it has no `code`, so never null or undefined. It is
an object `record r`, an array (taken to hold records), or `other`: a number, a string
or a boolean, of which the store reads no more than that it is not an array. -/
inductive ApiValue where
  | record (r : JsObj)
  | array (items : List JsObj)
  | other
  deriving DecidableEq, Repr

/-- The properties a resolved value shows when it is read as a raw task record:
a number, string, boolean or array has none of the keys `formatTasks` reads. -/
def ApiValue.asRecord : ApiValue → JsObj
  | ApiValue.record r => r
  | ApiValue.array _ => []
  | ApiValue.other => []

/-- The argument of `dispatchEvent`. -/
inductive Payload where
  | tasks (ts : List Task)
  | task (t : Task)
  | error (e : JsError)
  deriving DecidableEq, Repr

/-- One call of `dispatchEvent(event, data)`, with `this.tasks` as it is at that moment. -/
structure Event where
  name : String
  data : Payload
  store : List Task
  deriving DecidableEq, Repr

/-- The effect of one store operation: the store afterwards, the value returned or
the error thrown, the calls made on `window.api` and the events dispatched, in order. -/
structure Outcome (α : Type) where
  model : TaskModel
  result : Except JsError α
  calls : List ApiCall
  events : List Event

/-- The method `loadGroupTasks(groupId)`; `response` is how `window.api.getGroupTasks`
settles. -/
def TaskModel.loadGroupTasks (env : Env) (response : Except JsError ApiValue)
    (groupId : JsVal) (m : TaskModel) : Outcome (List Task) :=
  match response with
  | Except.error error =>
    { model := m, result := Except.error error,
      calls := [ApiCall.getGroupTasks groupId],
      events := [{ name := "tasks:error", data := Payload.error error, store := m.tasks }] }
  | Except.ok tasks =>
    let formatted := formatTasks env
      (match tasks with
       | ApiValue.array items => items
       | _ => [])
    { model := { m with tasks := formatted }, result := Except.ok formatted,
      calls := [ApiCall.getGroupTasks groupId],
      events := [{ name := "tasks:loaded", data := Payload.tasks formatted, store := formatted }] }

/-- The object `formattedData` that `createTask(taskData)` builds. -/
def formattedData (taskData : JsObj) : JsObj :=
  [("title", taskData.get "title"),
   ("description", (taskData.get "description").orElse (JsVal.str "")),
   ("status", (taskData.get "status").orElse (JsVal.str "待处理")),
   ("priority", (taskData.get "priority").orElse (JsVal.str "中")),
   ("assignee", (taskData.get "assignee").orElse (JsVal.str "")),
   ("due_date", (taskData.get "dueDate").orElse JsVal.null),
   ("group_id", taskData.get "groupId")]

/-- The method `createTask(taskData)`; `response` is how `window.api.createTask` settles. -/
def TaskModel.createTask (env : Env) (response : Except JsError ApiValue)
    (taskData : JsObj) (m : TaskModel) : Outcome Task :=
  match response with
  | Except.error error =>
    { model := m, result := Except.error error,
      calls := [ApiCall.createTask (formattedData taskData)],
      events := [{ name := "task:createError", data := Payload.error error, store := m.tasks }] }
  | Except.ok newTask =>
    let formattedTask :=
      (formatTasks env [newTask.asRecord]).headD (formatTask env 0 newTask.asRecord)
    let tasks := m.tasks ++ [formattedTask]
    { model := { m with tasks := tasks }, result := Except.ok formattedTask,
      calls := [ApiCall.createTask (formattedData taskData)],
      events := [{ name := "task:created", data := Payload.task formattedTask, store := tasks },
                 { name := "tasks:updated", data := Payload.tasks tasks, store := tasks }] }

/-- The call `this.tasks.findIndex(task => task.id === taskId)`; `none` is `-1`. -/
def findIndex (taskId : JsVal) : List Task → Option Nat
  | [] => none
  | task :: rest =>
    if task.id.strictEq taskId then some 0 else (findIndex taskId rest).map (· + 1)

/-- The method `updateTaskStatus(taskId, status)`; `response` is how
`window.api.updateTaskStatus` settles. -/
def TaskModel.updateTaskStatus (response : Except JsError ApiValue)
    (taskId status : JsVal) (m : TaskModel) : Outcome Task :=
  let failed (error : JsError) : Outcome Task :=
    { model := m, result := Except.error error,
      calls := [ApiCall.updateTaskStatus taskId status],
      events := [{ name := "task:updateError", data := Payload.error error, store := m.tasks }] }
  match response with
  | Except.error error => failed error
  | Except.ok _ =>
    match findIndex taskId m.tasks with
    | none => failed { message := "任务不存在" }
    | some taskIndex =>
      match m.tasks[taskIndex]? with
      | none => failed { message := "TypeError" }
      | some task =>
        let updated := task.setStatus status
        let tasks := m.tasks.set taskIndex updated
        { model := { m with tasks := tasks }, result := Except.ok updated,
          calls := [ApiCall.updateTaskStatus taskId status],
          events := [{ name := "task:updated", data := Payload.task updated, store := tasks },
                     { name := "tasks:updated", data := Payload.tasks tasks, store := tasks }] }

/-! ## The HTTP layer under `window.api.createTask` -/

/-- The arguments of one `apiRequest(endpoint, method, data)` call and the body it puts
on the wire. -/
structure Request where
  endpoint : String
  method : String
  data : Option JsObj
  body : Option JsObj
  deriving DecidableEq, Repr

/-- The members `JSON.stringify` writes for an object: a member whose value is
undefined or a function is left out, NaN is written as null. Of the values under
`Object.prototype` only `__proto__` is an object and not a function. -/
def jsonMembers : JsObj → JsObj
  | [] => []
  | (k, v) :: rest =>
    match v with
    | JsVal.undefined => jsonMembers rest
    | JsVal.builtin key =>
      if key = "__proto__" then (k, v) :: jsonMembers rest else jsonMembers rest
    | JsVal.nan => (k, JsVal.null) :: jsonMembers rest
    | _ => (k, v) :: jsonMembers rest

/-- The request `apiRequest(endpoint, method, data)` sends when `data` is an object. -/
def apiRequest (endpoint method : String) (data : JsObj) : Request :=
  { endpoint := endpoint, method := method, data := some data,
    body := if method = "POST" ∨ method = "PUT" ∨ method = "DELETE"
            then some (jsonMembers data) else none }

/-- The function `api.createTask(taskData)` of `utils/api.js`. -/
def api.createTask (taskData : JsObj) : Request :=
  apiRequest "/task/create" "POST"
    [("task_desc", taskData.get "task_desc"),
     ("group_id", taskData.get "group_id"),
     ("leader_id", (taskData.get "leader_id").orElse (taskData.get "leaderId"))]

/-! ## Notions used in the statements -/

/-- The test "the status is none of the three counted ones". -/
def otherStatus (task : Task) : Bool :=
  !(task.status.strictEq (JsVal.str "待处理")) &&
  !(task.status.strictEq (JsVal.str "进行中")) &&
  !(task.status.strictEq (JsVal.str "已完成"))

/-- The test "a due date is set and lies before the current time". -/
def dueBefore (env : Env) (task : Task) : Bool :=
  task.dueDate.truthy &&
    (match env.parseDate task.dueDate with
     | some due => decide (due < env.now)
     | none => false)

/-- Whether the operation returned rather than threw. -/
def Outcome.succeeded {α : Type} (o : Outcome α) : Bool :=
  match o.result with
  | Except.ok _ => true
  | Except.error _ => false

/-- The scaling found by `binade` puts the quotient in the binade of 53-bit integers. -/
def InBinade (n d a b : Nat) : Prop :=
  0 < a ∧ 0 < b ∧ d * b * 2 ^ 52 ≤ n * a ∧ n * a < d * b * 2 ^ 53

/-! ## Sample data -/

/-- A fixed environment: the clock reads 1000, a number is its own time value and
nothing else parses as a date. -/
def sampleEnv : Env :=
  { now := 1000,
    parseDate := fun v =>
      match v with
      | JsVal.num n => some n
      | _ => none,
    freshId := fun i => JsVal.frac i,
    isoNow := "2026-01-01T00:00:00.000Z",
    objKey := fun _ => "[object Object]" }

/-- A raw record of a finished task. -/
def rawDone : JsObj := [("id", JsVal.num 1), ("status", JsVal.str "已完成")]

/-- A raw record of a task without a status. -/
def rawPlain : JsObj := [("id", JsVal.num 2), ("title", JsVal.str "Write report")]

/-- A store of forty tasks, twenty-three of them finished. -/
def fortyTasks : TaskModel :=
  { tasks := formatTasks sampleEnv (List.replicate 23 rawDone ++ List.replicate 17 rawPlain) }

/-- A raw record whose status is not one of the four entries of `this.statuses`. -/
def rawCancelled : JsObj := [("id", JsVal.num 3), ("status", JsVal.str "已取消")]

/-- A raw record of a finished task whose due date (time value 5) is before the
sample clock (1000). -/
def rawDoneLate : JsObj :=
  [("id", JsVal.num 4), ("status", JsVal.str "已完成"), ("due_date", JsVal.num 5)]

/-- The task input of the spec's scenario: title, priority 高 and status 待处理. -/
def inputReport : JsObj :=
  [("title", JsVal.str "Write report"), ("priority", JsVal.str "高"),
   ("status", JsVal.str "待处理"), ("groupId", JsVal.num 3)]

/-- A task input whose title is the empty string. -/
def inputNoTitle : JsObj := [("title", JsVal.str ""), ("groupId", JsVal.num 3)]

/-- A backend answer to a create call: a record with an id and the status 进行中. -/
def responseDoing : ApiValue :=
  ApiValue.record [("id", JsVal.num 7), ("status", JsVal.str "进行中")]

/-- A backend answer to a create call: a record that carries only the new id. -/
def responseIdOnly : ApiValue := ApiValue.record [("id", JsVal.num 8)]

/-- A store with two tasks under the ids 1 and 2. -/
def twoTasks : TaskModel := { tasks := formatTasks sampleEnv [rawDone, rawPlain] }

/-! ## Local edits of the task list -/

/-- The own enumerable properties `{ ...task }` copies: the data properties, and the
three getters read at that moment when the task still has them. -/
def Task.spreadProps (env : Env) (t : Task) : JsObj :=
  if t.accessors then
    ((t.props.set "isOverdue" (isOverdueGetter env t.props)).set
      "statusColor" (statusColorGetter env t.props)).set
      "priorityColor" (priorityColorGetter env t.props)
  else t.props

/-- The tail `...source` of an object literal: every property of `source`, in order,
written onto `target`. -/
def JsObj.assign (target source : JsObj) : JsObj :=
  source.foldl (fun o entry => o.set entry.1 entry.2) target

/-- The object literal `{ ...task, ...updates }`: a plain object without getters. -/
def Task.merge (env : Env) (t : Task) (updates : JsObj) : Task :=
  { props := (t.spreadProps env).assign updates, accessors := false }

/-- The method `updateTask(taskId, updates)`. It is synchronous, calls no backend and
has no `try`: the error is thrown as it is. `findIndex` only returns an index of the
list, so the branch without a task at the index is never taken. -/
def TaskModel.updateTask (env : Env) (taskId : JsVal) (updates : JsObj) (m : TaskModel) :
    Outcome Task :=
  let missing : Outcome Task :=
    { model := m, result := Except.error { message := "任务不存在" }, calls := [], events := [] }
  match findIndex taskId m.tasks with
  | none => missing
  | some taskIndex =>
    match m.tasks[taskIndex]? with
    | none => missing
    | some task =>
      let merged := task.merge env updates
      let tasks := m.tasks.set taskIndex merged
      { model := { m with tasks := tasks }, result := Except.ok merged, calls := [],
        events := [{ name := "task:updated", data := Payload.task merged, store := tasks },
                   { name := "tasks:updated", data := Payload.tasks tasks, store := tasks }] }

/-- The method `deleteTask(taskId)`: `splice(taskIndex, 1)` when the id is found,
nothing otherwise. `findIndex` only returns an index of the list, so the branch
without a task at the index is never taken. -/
def TaskModel.deleteTask (taskId : JsVal) (m : TaskModel) : Outcome Unit :=
  let untouched : Outcome Unit :=
    { model := m, result := Except.ok (), calls := [], events := [] }
  match findIndex taskId m.tasks with
  | none => untouched
  | some taskIndex =>
    match m.tasks[taskIndex]? with
    | none => untouched
    | some deletedTask =>
      let tasks := m.tasks.eraseIdx taskIndex
      { model := { m with tasks := tasks }, result := Except.ok (), calls := [],
        events := [{ name := "task:deleted", data := Payload.task deletedTask, store := tasks },
                   { name := "tasks:updated", data := Payload.tasks tasks, store := tasks }] }

/-! ## Event listeners (`on`, `off`, `dispatchEvent` of the three models) -/

/-- A registered callback: `ident` is the identity of the function, `raises` tells
whether calling it throws. A callback does not touch the listener table. -/
structure Handler where
  ident : Nat
  raises : Bool
  deriving DecidableEq, Repr

/-- The object `this.listeners`: its own properties, each holding an array of callbacks. -/
abbrev Listeners := List (String × List Handler)

/-- What the read `this.listeners[event]` gives: nothing, an own array, or the member
of `Object.prototype` that the object literal `{}` inherits under that key. -/
inductive ListenerSlot where
  | absent
  | list (handlers : List Handler)
  | inherited (key : String)
  deriving DecidableEq, Repr

/-- The read `this.listeners[event]`. -/
def Listeners.read (ls : Listeners) (event : String) : ListenerSlot :=
  match ls.lookup event with
  | some handlers => ListenerSlot.list handlers
  | none =>
    if event ∈ objectPrototypeKeys then ListenerSlot.inherited event else ListenerSlot.absent

/-- The write of the array under an own key: in place, or as a new last property. -/
def Listeners.store : Listeners → String → List Handler → Listeners
  | [], event, handlers => [(event, handlers)]
  | (e0, h0) :: rest, event, handlers =>
    if e0 = event then (event, handlers) :: rest
    else (e0, h0) :: Listeners.store rest event handlers

/-- The method `on(event, callback)`. An inherited member is truthy and has no `push`,
so the call throws a TypeError. -/
def Listeners.on (ls : Listeners) (event : String) (callback : Handler) :
    Except JsError Listeners :=
  match ls.read event with
  | ListenerSlot.absent => Except.ok (ls.store event [callback])
  | ListenerSlot.list handlers => Except.ok (ls.store event (handlers ++ [callback]))
  | ListenerSlot.inherited _ => Except.error { message := "TypeError" }

/-- The call `array.indexOf(callback)`; `none` is `-1`. -/
def indexOfHandler (callback : Handler) : List Handler → Option Nat
  | [] => none
  | h :: rest =>
    if h.ident = callback.ident then some 0 else (indexOfHandler callback rest).map (· + 1)

/-- The method `off(event, callback)`. An inherited member has no `indexOf`, so the
call throws a TypeError. -/
def Listeners.off (ls : Listeners) (event : String) (callback : Handler) :
    Except JsError Listeners :=
  match ls.read event with
  | ListenerSlot.absent => Except.ok ls
  | ListenerSlot.list handlers =>
    match indexOfHandler callback handlers with
    | none => Except.ok ls
    | some index => Except.ok (ls.store event (handlers.eraseIdx index))
  | ListenerSlot.inherited _ => Except.error { message := "TypeError" }

/-- What one `dispatchEvent` did: the callbacks called with their argument, in order,
and the callbacks whose exception was caught and logged. -/
structure Dispatch (δ : Type) where
  calls : List (Nat × δ)
  logged : List Nat

/-- The loop `forEach(callback => { try { callback(data) } catch ... })`. -/
def callEach {δ : Type} (data : δ) : List Handler → Dispatch δ
  | [] => { calls := [], logged := [] }
  | h :: rest =>
    let after := callEach data rest
    { calls := (h.ident, data) :: after.calls,
      logged := if h.raises then h.ident :: after.logged else after.logged }

/-- The method `dispatchEvent(event, data)`. An inherited member is truthy and has no
`forEach`, so the call throws a TypeError. -/
def Listeners.dispatchEvent {δ : Type} (ls : Listeners) (event : String) (data : δ) :
    Except JsError (Dispatch δ) :=
  match ls.read event with
  | ListenerSlot.absent => Except.ok { calls := [], logged := [] }
  | ListenerSlot.list handlers => Except.ok (callEach data handlers)
  | ListenerSlot.inherited _ => Except.error { message := "TypeError" }

/-- Registering the callbacks `h1 .. hn` with `on`, one after the other. -/
def Listeners.onAll (ls : Listeners) (event : String) :
    List Handler → Except JsError Listeners
  | [] => Except.ok ls
  | h :: rest =>
    match ls.on event h with
    | Except.error e => Except.error e
    | Except.ok next => Listeners.onAll next event rest

/-! ## JSON values and the browser's storage -/

/-- A value that `JSON.parse` can return, which is also what a session or a group is
made of. Integral numbers are `num`, a finite non-integral number is `frac k` (the
code `k` identifies the number). -/
inductive Json where
  | null
  | bool (b : Bool)
  | num (n : Int)
  | frac (k : Nat)
  | str (s : String)
  | arr (items : List Json)
  | obj (members : List (String × Json))
  deriving Repr

/-- ToBoolean on a JSON value: null, false, 0 and the empty string are falsy. -/
def Json.truthy : Json → Bool
  | Json.null => false
  | Json.bool b => b
  | Json.num n => n != 0
  | Json.frac _ => true
  | Json.str s => s != ""
  | Json.arr _ => true
  | Json.obj _ => true

/-- The read `v?.key` for a key that is neither inherited nor built in (such as
`user_id`): the member of an object, and undefined (`none`) on null, on a primitive,
on an array and on an object without the member. -/
def Json.member (v : Json) (key : String) : Option Json :=
  match v with
  | Json.obj members => members.lookup key
  | _ => none

/-- The operator `a || b` when `a` may be undefined and `b` is a value. -/
def Json.orElse (a : Option Json) (b : Json) : Json :=
  match a with
  | some v => if v.truthy then v else b
  | none => b

/-- What the code takes from the platform besides the storage: `JSON.stringify` and
`JSON.parse` (`none` when it throws a SyntaxError), and the text of a non-integral
number. -/
structure Platform where
  stringify : Json → String
  parse : String → Option Json
  numberText : Nat → String

mutual
/-- ToString of a JSON value, as `localStorage.setItem` applies it to its argument. -/
def Json.toText (p : Platform) : Json → String
  | Json.null => "null"
  | Json.bool b => if b then "true" else "false"
  | Json.num n => toString n
  | Json.frac k => p.numberText k
  | Json.str s => s
  | Json.arr items => Json.joinText p items
  | Json.obj _ => "[object Object]"
/-- The text `Array.prototype.join` builds: the elements separated by commas, a null
element written as the empty text. -/
def Json.joinText (p : Platform) : List Json → String
  | [] => ""
  | [Json.null] => ""
  | [item] => Json.toText p item
  | Json.null :: rest => "," ++ Json.joinText p rest
  | item :: rest => Json.toText p item ++ "," ++ Json.joinText p rest
end

/-- The contents of `localStorage`: keys and their texts. -/
abbrev Storage := List (String × String)

/-- The call `localStorage.getItem(key)`; `none` is null. -/
def Storage.getItem (s : Storage) (key : String) : Option String := s.lookup key

/-- The call `localStorage.setItem(key, value)`. -/
def Storage.setItem : Storage → String → String → Storage
  | [], key, value => [(key, value)]
  | (k0, v0) :: rest, key, value =>
    if k0 = key then (key, value) :: rest else (k0, v0) :: Storage.setItem rest key value

/-- The call `localStorage.removeItem(key)`. -/
def Storage.removeItem (s : Storage) (key : String) : Storage :=
  s.filter (fun entry => entry.1 != key)

/-- The white space `parseInt` skips: WhiteSpace and LineTerminator of the language. -/
def isStrWhiteSpace (c : Char) : Bool :=
  c.toNat ∈ [0x9, 0xA, 0xB, 0xC, 0xD, 0x20, 0xA0, 0x1680, 0x2028, 0x2029, 0x202F, 0x205F,
    0x3000, 0xFEFF] || (0x2000 ≤ c.toNat && c.toNat ≤ 0x200A)

/-- The value of a character as a digit of the given radix (10 or 16). -/
def digitValue (radix : Nat) (c : Char) : Option Nat :=
  if c.isDigit then some (c.toNat - '0'.toNat)
  else if radix = 16 ∧ 'a'.toNat ≤ c.toNat ∧ c.toNat ≤ 'f'.toNat then
    some (c.toNat - 'a'.toNat + 10)
  else if radix = 16 ∧ 'A'.toNat ≤ c.toNat ∧ c.toNat ≤ 'F'.toNat then
    some (c.toNat - 'A'.toNat + 10)
  else none

/-- The number written by the longest prefix of digits; `none` when there is no digit. -/
def digitsPrefix (radix : Nat) : Option Nat → List Char → Option Nat
  | acc, [] => acc
  | acc, c :: rest =>
    match digitValue radix c with
    | none => acc
    | some d => digitsPrefix radix (some (acc.getD 0 * radix + d)) rest

/-- The function `parseInt(text)` without radix; `none` is NaN. Leading white space is
skipped, a sign and a prefix `0x` are read, then the longest run of digits. The
result is kept as an exact integer. -/
def parseInt (text : String) : Option Int :=
  let trimmed := text.toList.dropWhile isStrWhiteSpace
  let negative := trimmed.head? = some '-'
  let unsigned :=
    if trimmed.head? = some '-' ∨ trimmed.head? = some '+' then trimmed.drop 1 else trimmed
  let hex := unsigned.take 2 = ['0', 'x'] ∨ unsigned.take 2 = ['0', 'X']
  let digits := if hex then unsigned.drop 2 else unsigned
  match digitsPrefix (if hex then 16 else 10) none digits with
  | none => none
  | some n => some (if negative then -(n : Int) else (n : Int))

/-! ## The session store (`model/user.js`) -/

/-- The state of `UserModel`: `this.currentUser`, null when there is no session. -/
structure UserModel where
  currentUser : Json

/-- The method `initialize()`. -/
def UserModel.initialize (p : Platform) (storage : Storage) (m : UserModel) : UserModel :=
  match storage.getItem "user_data" with
  | none => m
  | some storedUser =>
    if storedUser != "" then
      match p.parse storedUser with
      | some user => { m with currentUser := user }
      | none => { m with currentUser := Json.null }
    else m

/-- The constructor: `this.currentUser = null; this.initialize()`. A restart of the
page builds the model anew over the storage that was left. -/
def UserModel.new (p : Platform) (storage : Storage) : UserModel :=
  UserModel.initialize p storage { currentUser := Json.null }

/-- The method `getCurrentUser()`. -/
def UserModel.getCurrentUser (m : UserModel) : Json := m.currentUser

/-- The method `getUserId()`:
`this.currentUser?.user_id || parseInt(localStorage.getItem('user_id')) || null`.
`parseInt` is applied to the text of its argument, which is `null` for a missing key. -/
def UserModel.getUserId (storage : Storage) (m : UserModel) : Json :=
  Json.orElse (m.currentUser.member "user_id")
    (match parseInt ((storage.getItem "user_id").getD "null") with
     | some n => if n != 0 then Json.num n else Json.null
     | none => Json.null)

/-- The method `getUserName()`:
`this.currentUser?.user_name || localStorage.getItem('user_name') || '用户'`. -/
def UserModel.getUserName (storage : Storage) (m : UserModel) : Json :=
  Json.orElse (m.currentUser.member "user_name")
    (match storage.getItem "user_name" with
     | some name => if name != "" then Json.str name else Json.str "用户"
     | none => Json.str "用户")

/-- The method `isLoggedIn()`: `!!this.getUserId()`. -/
def UserModel.isLoggedIn (storage : Storage) (m : UserModel) : Bool :=
  (m.getUserId storage).truthy

/-- One call of `dispatchEvent(event, data)` of the session or the group store. -/
structure JsonEvent where
  name : String
  data : Json

/-- The effect of one operation of the session store: the store and the storage
afterwards, the events dispatched and the error thrown, if any. -/
structure SessionOutcome where
  model : UserModel
  storage : Storage
  events : List JsonEvent
  thrown : Option JsError

/-- The method `login(userData)`. Reading `userData.user_id` of null throws a
TypeError, after `this.currentUser` has been assigned. -/
def UserModel.login (p : Platform) (userData : Json) (storage : Storage) (m : UserModel) :
    SessionOutcome :=
  match userData with
  | Json.null =>
    { model := { m with currentUser := userData }, storage := storage, events := [],
      thrown := some { message := "TypeError" } }
  | _ =>
    { model := { m with currentUser := userData },
      storage :=
        (((storage.setItem "user_id"
              ((Json.orElse (userData.member "user_id") (Json.str "")).toText p)).setItem
            "user_name" ((Json.orElse (userData.member "user_name") (Json.str "")).toText p)).setItem
          "user_contact" ((Json.orElse (userData.member "contact") (Json.str "")).toText p)).setItem
        "user_data" (p.stringify userData),
      events := [{ name := "user:login", data := userData }],
      thrown := none }

/-- The method `logout()`. -/
def UserModel.logout (storage : Storage) (m : UserModel) : SessionOutcome :=
  let oldUser := m.currentUser
  { model := { m with currentUser := Json.null },
    storage :=
      (((storage.removeItem "user_id").removeItem "user_name").removeItem
        "user_contact").removeItem "user_data",
    events := [{ name := "user:logout", data := oldUser }],
    thrown := none }

/-- The four writes of the login page after `window.api.login` has resolved to `result`
(`pages/login.js`): the page writes the storage itself and does not call the store. -/
def loginPageStore (p : Platform) (result : Json) (userId contact : String)
    (storage : Storage) : Storage :=
  (((storage.setItem "user_id"
        ((Json.orElse (result.member "user_id") (Json.str userId)).toText p)).setItem
      "user_contact" ((Json.orElse (result.member "contact") (Json.str contact)).toText p)).setItem
    "user_name" ((Json.orElse (result.member "user_name") (Json.str "用户")).toText p)).setItem
  "user_data" (p.stringify (if result.truthy then result else Json.obj []))

/-! ## The group store (`model/group.js`) -/

/-- The state of `GroupModel`: the list of groups and the selected group (null when
none is selected). -/
structure GroupModel where
  groups : List Json
  currentGroup : Json

/-- The constructor. -/
def GroupModel.new : GroupModel := { groups := [], currentGroup := Json.null }

/-- The method `getCurrentGroup()`: the store afterwards and the value returned. A text
that does not parse is logged and leaves `this.currentGroup` as it is. -/
def GroupModel.getCurrentGroup (p : Platform) (storage : Storage) (g : GroupModel) :
    GroupModel × Json :=
  if !g.currentGroup.truthy then
    match storage.getItem "current_group" with
    | none => (g, g.currentGroup)
    | some storedGroup =>
      if storedGroup != "" then
        match p.parse storedGroup with
        | some group => ({ g with currentGroup := group }, group)
        | none => (g, g.currentGroup)
      else (g, g.currentGroup)
  else (g, g.currentGroup)

/-! ## Sample data for the local edits, the listeners and the session -/

/-- A store with four tasks, two of them under the same id 2. -/
def fourTasks : TaskModel :=
  { tasks := formatTasks sampleEnv [rawDone, rawPlain, rawDoneLate, rawPlain] }

/-- A set of updated fields: a new title and the status 进行中. -/
def sampleUpdates : JsObj :=
  [("title", JsVal.str "Read paper"), ("status", JsVal.str "进行中")]

/-- A callback that returns normally. -/
def quietHandler : Handler := { ident := 1, raises := false }

/-- A callback that throws. -/
def raisingHandler : Handler := { ident := 2, raises := true }

/-- A session payload. -/
def sampleSession : Json :=
  Json.obj [("user_id", Json.num 1), ("user_name", Json.str "Alice"),
            ("contact", Json.str "13800138000")]

/-- The JSON text of the sample session. -/
def sampleBlob : String :=
  "\x7b\"user_id\":1,\"user_name\":\"Alice\",\"contact\":\"13800138000\"\x7d"

/-- A platform of which only the behaviour on the sample session is fixed: the session
is written as its JSON text, and that text is the only one that parses. -/
def samplePlatform : Platform :=
  { stringify := fun _ => sampleBlob,
    parse := fun text => if text = sampleBlob then some sampleSession else none,
    numberText := fun _ => "0.5" }

/-- A storage whose session and group entries hold a text that is not JSON. -/
def corruptStorage : Storage := [("user_data", "not json"), ("current_group", "not json")]

/-! ## Selecting a group (`model/group.js`) -/

/-- Strict equality `a === b` of two JSON values of which one is a primitive; two
objects or arrays are taken to be different references. -/
def Json.strictEq : Json → Json → Bool
  | Json.null, Json.null => true
  | Json.bool a, Json.bool b => a == b
  | Json.num a, Json.num b => a == b
  | Json.frac a, Json.frac b => a == b
  | Json.str a, Json.str b => a == b
  | _, _ => false

/-- The test `typeof group === 'number'`. -/
def Json.isNumber : Json → Bool
  | Json.num _ => true
  | Json.frac _ => true
  | _ => false

/-- The call `this.groups.find(group => group.id === groupId)`; `none` is undefined.
Reading `id` of a null element throws a TypeError; an element without `id` does not
match. -/
def findGroup (groupId : Json) : List Json → Except JsError (Option Json)
  | [] => Except.ok none
  | group :: rest =>
    match group with
    | Json.null => Except.error { message := "TypeError" }
    | _ =>
      match group.member "id" with
      | some id => if id.strictEq groupId then Except.ok (some group) else findGroup groupId rest
      | none => findGroup groupId rest

/-- The method `getGroupById(groupId)`: the group found, `|| null`. -/
def GroupModel.getGroupById (groupId : Json) (g : GroupModel) : Except JsError Json :=
  match findGroup groupId g.groups with
  | Except.error e => Except.error e
  | Except.ok (some group) => Except.ok (if group.truthy then group else Json.null)
  | Except.ok none => Except.ok Json.null

/-- The argument of `dispatchEvent` in the group store. -/
inductive GroupPayload where
  | group (value : Json)
  | groups (list : List Json)
  | error (e : JsError)

/-- One call of `dispatchEvent(event, data)` of the group store. -/
structure GroupEvent where
  name : String
  data : GroupPayload

/-- The effect of a synchronous operation of the group store: the store and the storage
afterwards, the events dispatched and the error thrown, if any. -/
structure GroupOutcome where
  model : GroupModel
  storage : Storage
  events : List GroupEvent
  thrown : Option JsError

/-- The method `setCurrentGroup(group)`. A number is looked up in the list; when the
lookup throws, nothing has been assigned yet. -/
def GroupModel.setCurrentGroup (p : Platform) (group : Json) (storage : Storage)
    (g : GroupModel) : GroupOutcome :=
  match (if group.isNumber then g.getGroupById group else Except.ok group) with
  | Except.error e => { model := g, storage := storage, events := [], thrown := some e }
  | Except.ok current =>
    if current.truthy then
      { model := { g with currentGroup := current },
        storage := storage.setItem "current_group" (p.stringify current),
        events := [{ name := "group:changed", data := GroupPayload.group current }],
        thrown := none }
    else
      { model := { g with currentGroup := current }, storage := storage, events := [],
        thrown := none }

/-- The method `clearCurrentGroup()`. -/
def GroupModel.clearCurrentGroup (storage : Storage) (g : GroupModel) : GroupModel × Storage :=
  ({ g with currentGroup := Json.null }, storage.removeItem "current_group")

/-- The platform writes `v` as a text that is not empty and that parses back to `v`:
`v` is JSON-serializable. -/
def Platform.Serializes (p : Platform) (v : Json) : Prop :=
  p.stringify v ≠ "" ∧ p.parse (p.stringify v) = some v

/-- The argument of `setCurrentGroup` has the documented type `number|Object`: a number,
an object, an array or null. -/
def Json.isNumberOrObject : Json → Bool
  | Json.num _ => true
  | Json.frac _ => true
  | Json.obj _ => true
  | Json.arr _ => true
  | Json.null => true
  | _ => false

/-- The states of the group store and the storage that its operations reach, from a new
store over any storage. `loadUserGroups`, `createGroup` and `getGroupDetail` write
nothing but `this.groups`, and are covered by the step that puts any list there.
A group that is selected is JSON-serializable. -/
inductive GroupStore.Reachable (p : Platform) : GroupModel → Storage → Prop where
  | start (storage : Storage) : GroupStore.Reachable p GroupModel.new storage
  | groups (g : GroupModel) (storage : Storage) (list : List Json)
      (before : GroupStore.Reachable p g storage) :
      GroupStore.Reachable p { g with groups := list } storage
  | select (g : GroupModel) (storage : Storage) (group : Json)
      (before : GroupStore.Reachable p g storage)
      (typed : group.isNumberOrObject = true)
      (serial : (g.setCurrentGroup p group storage).model.currentGroup.truthy = true →
        p.Serializes (g.setCurrentGroup p group storage).model.currentGroup) :
      GroupStore.Reachable p (g.setCurrentGroup p group storage).model
        (g.setCurrentGroup p group storage).storage
  | current (g : GroupModel) (storage : Storage)
      (before : GroupStore.Reachable p g storage) :
      GroupStore.Reachable p (g.getCurrentGroup p storage).1 storage
  | clear (g : GroupModel) (storage : Storage)
      (before : GroupStore.Reachable p g storage) :
      GroupStore.Reachable p (g.clearCurrentGroup storage).1 (g.clearCurrentGroup storage).2

/-- The in-memory selection is null or is what the text in the storage parses to. -/
def GroupStore.Coherent (p : Platform) (g : GroupModel) (storage : Storage) : Prop :=
  g.currentGroup = Json.null ∨
    ∃ text, storage.getItem "current_group" = some text ∧ text ≠ "" ∧
      p.parse text = some g.currentGroup

/-- A group as the backend delivers it. -/
def sampleGroup : Json :=
  Json.obj [("id", Json.num 7), ("name", Json.str "Databases")]

/-- The JSON text of the sample group. -/
def sampleGroupBlob : String := "\x7b\"id\":7,\"name\":\"Databases\"\x7d"

/-- A platform of which only the behaviour on the sample group is fixed. -/
def groupPlatform : Platform :=
  { stringify := fun _ => sampleGroupBlob,
    parse := fun text => if text = sampleGroupBlob then some sampleGroup else none,
    numberText := fun _ => "0.5" }

/-- A group store that holds the sample group and has selected it. -/
def selectedStore : GroupModel := { groups := [sampleGroup], currentGroup := sampleGroup }

/-- The storage after the sample group has been selected. -/
def selectedStorage : Storage := [("current_group", sampleGroupBlob)]

/-! ## The response of `apiRequest` and `api.createGroup` (`utils/api.js`) -/

/-- The part of `apiRequest` after `const result = await response.json()`: what the
call resolves to, or the error it throws (the `catch` block shows it and throws it
again). Reading `code` of null throws a TypeError. -/
def apiRequestResult (p : Platform) (result : Json) : Except JsError Json :=
  match result with
  | Json.null => Except.error { message := "TypeError" }
  | _ =>
    match result.member "code" with
    | none => Except.ok result
    | some code =>
      if code.strictEq (Json.num 200) then
        Except.ok (Json.orElse (result.member "data") (Json.obj []))
      else
        Except.error
          { message :=
              (Json.orElse (result.member "msg")
                (Json.str ("请求失败，错误码: " ++ code.toText p))).toText p }

/-- ToString of a value, as a template literal, a `dataset` assignment and `parseInt`
apply it. -/
def JsVal.toText (p : Platform) (env : Env) : JsVal → String
  | JsVal.undefined => "undefined"
  | JsVal.null => "null"
  | JsVal.nan => "NaN"
  | JsVal.bool b => if b then "true" else "false"
  | JsVal.num n => toString n
  | JsVal.frac k => p.numberText k
  | JsVal.str s => s
  | JsVal.obj r => env.objKey r
  | JsVal.builtin key =>
    if key = "__proto__" then "[object Object]"
    else "function " ++ key ++ "() \x7b [native code] \x7d"

/-- The function `api.createGroup(groupName, courseId = 1, creatorId = null)`: a default
is taken when the argument is undefined. -/
def api.createGroup (p : Platform) (env : Env) (storage : Storage)
    (groupName courseId creatorId : JsVal) : Request :=
  let courseId := if courseId = JsVal.undefined then JsVal.num 1 else courseId
  let creatorId := if creatorId = JsVal.undefined then JsVal.null else creatorId
  let creatorId :=
    if !creatorId.truthy then
      (match storage.getItem "user_id" with
       | some text => JsVal.str text
       | none => JsVal.null)
    else creatorId
  apiRequest "/group/create" "POST"
    [("group_name", groupName),
     ("course_id", courseId.orElse (JsVal.num 1)),
     ("creator_id",
        if creatorId.truthy then
          (match parseInt (creatorId.toText p env) with
           | some n => JsVal.num n
           | none => JsVal.nan)
        else JsVal.num 1)]

/-- The effect of `createGroup`: the store afterwards, the value returned or the error
thrown, the requests sent and the events dispatched. -/
structure GroupCreateOutcome where
  model : GroupModel
  result : Except JsError Json
  requests : List Request
  events : List GroupEvent

/-- The method `createGroup(name, description = '')` of the group store; `response` is
how `window.api.createGroup(name, description)` settles. -/
def GroupModel.createGroup (p : Platform) (env : Env) (storage : Storage)
    (response : Except JsError Json) (name description : JsVal) (g : GroupModel) :
    GroupCreateOutcome :=
  let description := if description = JsVal.undefined then JsVal.str "" else description
  let request := api.createGroup p env storage name description JsVal.undefined
  match response with
  | Except.error error =>
    { model := g, result := Except.error error, requests := [request],
      events := [{ name := "group:createError", data := GroupPayload.error error }] }
  | Except.ok newGroup =>
    { model := { g with groups := g.groups ++ [newGroup] }, result := Except.ok newGroup,
      requests := [request],
      events := [{ name := "group:created", data := GroupPayload.group newGroup },
                 { name := "groups:updated",
                   data := GroupPayload.groups (g.groups ++ [newGroup]) }] }

/-! ## The colours a task should show -/

/-- The colour mapped to a status, the default colour for a value without a mapping. -/
def mappedStatusColor (status : JsVal) : JsVal :=
  if status = JsVal.str "待处理" then JsVal.str "#95a5a6"
  else if status = JsVal.str "进行中" then JsVal.str "#3498db"
  else if status = JsVal.str "已完成" then JsVal.str "#2ecc71"
  else if status = JsVal.str "已延期" then JsVal.str "#e74c3c"
  else JsVal.str "#95a5a6"

/-- The colour mapped to a priority, the default colour for a value without a mapping. -/
def mappedPriorityColor (priority : JsVal) : JsVal :=
  if priority = JsVal.str "低" then JsVal.str "#2ecc71"
  else if priority = JsVal.str "中" then JsVal.str "#f39c12"
  else if priority = JsVal.str "高" then JsVal.str "#e74c3c"
  else JsVal.str "#f39c12"

/-! ## The drop handler of the board (`pages/task-board.js`) -/

/-- A task card in the page: the attribute `data-task-id`, which is a text, and the
`data-status` of the task list that holds the card (undefined when the list has no
such attribute). -/
structure Card where
  taskId : String
  listStatus : JsVal
  deriving DecidableEq, Repr

/-- The `drop` listener of a column whose task list has the `data-status` `newStatus`,
with `draggedTask` the card being dragged: `none` when the handler returns before any
call, else the effect of the call `taskModel.updateTaskStatus(taskId, newStatus)` that
the board's `updateTaskStatus` makes first. -/
def TaskBoard.drop (response : Except JsError ApiValue) (draggedTask : Option Card)
    (newStatus : JsVal) (store : TaskModel) : Option (Outcome Task) :=
  match draggedTask with
  | none => none
  | some card =>
    if card.listStatus.strictEq newStatus then none
    else some (store.updateTaskStatus response (JsVal.str card.taskId) newStatus)

/-- The store and the backend calls after a drop. -/
def TaskBoard.afterDrop (response : Except JsError ApiValue) (draggedTask : Option Card)
    (newStatus : JsVal) (store : TaskModel) : TaskModel × List ApiCall :=
  match TaskBoard.drop response draggedTask newStatus store with
  | none => (store, [])
  | some outcome => (outcome.model, outcome.calls)

/-- A successful response of the backend whose `data` is the number 0. -/
def envelopeZero : Json :=
  Json.obj [("code", Json.num 200), ("data", Json.num 0), ("msg", Json.str "ok")]

/-- A failure response of the backend whose `msg` is empty. -/
def envelopeNoMsg : Json :=
  Json.obj [("code", Json.num 500), ("data", Json.null), ("msg", Json.str "")]

/-- A successful response of the backend that has no member `data`. -/
def envelopeBare : Json := Json.obj [("code", Json.num 200)]

/-- A response of the backend whose `code` is the text 200 and not the number. -/
def envelopeTextCode : Json :=
  Json.obj [("code", Json.str "200"), ("data", Json.num 5), ("msg", Json.str "denied")]

/-- The call `on(event, callback)` followed by `off(event, callback)`. -/
def Listeners.onThenOff (ls : Listeners) (event : String) (callback : Handler) :
    Except JsError Listeners :=
  match ls.on event callback with
  | Except.error e => Except.error e
  | Except.ok next => next.off event callback

/-- A set of updated fields that names only the status. -/
def statusUpdate : JsObj := [("status", JsVal.str "已完成")]

/-- A set of updated fields that names only the priority. -/
def priorityUpdate : JsObj := [("priority", JsVal.str "高")]

/-! ## Basic facts -/

theorem strictEq_str_iff (a : JsVal) (s : String) :
    a.strictEq (JsVal.str s) = true ↔ a = JsVal.str s := by
  cases a <;> simp [JsVal.strictEq]

theorem strictEq_self_str (s : String) : (JsVal.str s).strictEq (JsVal.str s) = true := by
  simp [JsVal.strictEq]

theorem status_split (task : Task) :
    (if task.status.strictEq (JsVal.str "待处理") then 1 else 0) +
    (if task.status.strictEq (JsVal.str "进行中") then 1 else 0) +
    (if task.status.strictEq (JsVal.str "已完成") then 1 else 0) +
    (if otherStatus task then 1 else 0) = 1 := by
  unfold otherStatus
  by_cases h1 : task.status = JsVal.str "待处理"
  · rw [h1]; decide
  · by_cases h2 : task.status = JsVal.str "进行中"
    · rw [h2]; decide
    · by_cases h3 : task.status = JsVal.str "已完成"
      · rw [h3]; decide
      · have e1 : task.status.strictEq (JsVal.str "待处理") = false := by
          rw [Bool.eq_false_iff]; intro h; exact h1 ((strictEq_str_iff _ _).1 h)
        have e2 : task.status.strictEq (JsVal.str "进行中") = false := by
          rw [Bool.eq_false_iff]; intro h; exact h2 ((strictEq_str_iff _ _).1 h)
        have e3 : task.status.strictEq (JsVal.str "已完成") = false := by
          rw [Bool.eq_false_iff]; intro h; exact h3 ((strictEq_str_iff _ _).1 h)
        simp [e1, e2, e3]

theorem length_filter_cons (p : Task → Bool) (task : Task) (rest : List Task) :
    ((task :: rest).filter p).length = (if p task then 1 else 0) + (rest.filter p).length := by
  by_cases h : p task = true
  · simp [List.filter_cons, h]; omega
  · simp [List.filter_cons, h]

theorem length_split (tasks : List Task) :
    tasks.length =
      (tasks.filter (fun task => task.status.strictEq (JsVal.str "待处理"))).length +
      (tasks.filter (fun task => task.status.strictEq (JsVal.str "进行中"))).length +
      (tasks.filter (fun task => task.status.strictEq (JsVal.str "已完成"))).length +
      (tasks.filter otherStatus).length := by
  induction tasks with
  | nil => simp
  | cons task rest ih =>
    have h := status_split task
    rw [length_filter_cons, length_filter_cons, length_filter_cons, length_filter_cons,
      List.length_cons]
    omega

theorem filter_otherStatus_nil (tasks : List Task)
    (h : ∀ task ∈ tasks, otherStatus task = false) : tasks.filter otherStatus = [] := by
  rw [List.filter_eq_nil_iff]
  intro task ht
  simp [h task ht]

/-! ## The progress figure in double precision -/

theorem binade_mid (fuel n d a b : Nat) (h : InBinade n d a b) :
    binade fuel n d a b = (a, b) := by
  obtain ⟨_, _, h1, h2⟩ := h
  cases fuel with
  | zero => rfl
  | succ fuel =>
    have c1 : ¬ n * a < d * b * 2 ^ 52 := by omega
    have c2 : ¬ d * b * 2 ^ 53 ≤ n * a := by omega
    simp only [binade, c1, c2, if_false]

theorem binade_low (n d : Nat) (fuel a b : Nat) (ha : 0 < a) (hb : 0 < b)
    (hlow : n * a < d * b * 2 ^ 52) (hfuel : d * b * 2 ^ 52 ≤ n * a * 2 ^ fuel) :
    InBinade n d (binade fuel n d a b).1 (binade fuel n d a b).2 := by
  induction fuel generalizing a with
  | zero => simp at hfuel; omega
  | succ fuel ih =>
    simp only [binade, hlow, if_true]
    by_cases hc : n * (2 * a) < d * b * 2 ^ 52
    · apply ih (2 * a) (by omega) hc
      have : n * (2 * a) * 2 ^ fuel = n * a * 2 ^ (fuel + 1) := by ring
      omega
    · have hin : InBinade n d (2 * a) b := by
        refine ⟨by omega, hb, by omega, ?_⟩
        have e1 : n * (2 * a) = 2 * (n * a) := by ring
        have e2 : d * b * 2 ^ 53 = 2 * (d * b * 2 ^ 52) := by ring
        omega
      rw [binade_mid fuel n d (2 * a) b hin]
      exact hin

theorem binade_high (n d : Nat) (fuel a b : Nat) (ha : 0 < a) (hb : 0 < b)
    (hhigh : d * b * 2 ^ 53 ≤ n * a) (hfuel : n * a < d * b * 2 ^ 53 * 2 ^ fuel) :
    InBinade n d (binade fuel n d a b).1 (binade fuel n d a b).2 := by
  induction fuel generalizing b with
  | zero => simp at hfuel; omega
  | succ fuel ih =>
    have e2 : d * b * 2 ^ 53 = 2 * (d * b * 2 ^ 52) := by ring
    have c1 : ¬ n * a < d * b * 2 ^ 52 := by omega
    simp only [binade, c1, if_false, hhigh, if_true]
    by_cases hc : d * (2 * b) * 2 ^ 53 ≤ n * a
    · apply ih (2 * b) (by omega) hc
      have : d * (2 * b) * 2 ^ 53 * 2 ^ fuel = d * b * 2 ^ 53 * 2 ^ (fuel + 1) := by ring
      omega
    · have hin : InBinade n d a (2 * b) := by
        refine ⟨ha, by omega, ?_, by omega⟩
        have e1 : d * (2 * b) * 2 ^ 52 = d * b * 2 ^ 53 := by ring
        omega
      rw [binade_mid fuel n d a (2 * b) hin]
      exact hin

theorem binade_spec (n d : Nat) (hn : 0 < n) (hd : 0 < d) :
    InBinade n d (binade (n + d + 54) n d 1 1).1 (binade (n + d + 54) n d 1 1).2 := by
  by_cases hlow : n * 1 < d * 1 * 2 ^ 52
  · apply binade_low n d _ 1 1 (by omega) (by omega) hlow
    have h1 : d < 2 ^ d := Nat.lt_two_pow d
    have h2 : 2 ^ (n + d + 54) = 2 ^ n * (2 ^ d * 2 ^ 54) := by ring
    have h3 : 0 < 2 ^ n := by positivity
    calc d * 1 * 2 ^ 52 ≤ 2 ^ d * 2 ^ 54 := by
          have : d * 1 * 2 ^ 52 ≤ 2 ^ d * 2 ^ 52 := by
            apply Nat.mul_le_mul_right; omega
          have : 2 ^ d * 2 ^ 52 ≤ 2 ^ d * 2 ^ 54 := by
            apply Nat.mul_le_mul_left; norm_num
          omega
      _ ≤ 1 * (2 ^ n * (2 ^ d * 2 ^ 54)) := by
          rw [Nat.one_mul]
          exact Nat.le_mul_of_pos_left _ h3
      _ ≤ n * 1 * 2 ^ (n + d + 54) := by
          rw [h2]; apply Nat.mul_le_mul_right; omega
  · by_cases hhigh : d * 1 * 2 ^ 53 ≤ n * 1
    · apply binade_high n d _ 1 1 (by omega) (by omega) hhigh
      have h1 : n < 2 ^ n := Nat.lt_two_pow n
      have h2 : 2 ^ (n + d + 54) = 2 ^ n * (2 ^ d * 2 ^ 54) := by ring
      have h3 : 0 < 2 ^ d * 2 ^ 54 := by positivity
      calc n * 1 < 2 ^ n * 1 := by omega
        _ ≤ 2 ^ n * (2 ^ d * 2 ^ 54) := Nat.mul_le_mul_left _ h3
        _ ≤ d * 1 * 2 ^ 53 * (2 ^ n * (2 ^ d * 2 ^ 54)) := by
            apply Nat.le_mul_of_pos_left; positivity
        _ = d * 1 * 2 ^ 53 * 2 ^ (n + d + 54) := by rw [h2]
    · have hin : InBinade n d 1 1 := ⟨by omega, by omega, by omega, by omega⟩
      rw [binade_mid _ n d 1 1 hin]
      exact hin

theorem roundHalfEven_near (N D : Nat) (hD : 0 < D) :
    2 * N ≤ 2 * (D * roundHalfEven N D) + D ∧ 2 * (D * roundHalfEven N D) ≤ 2 * N + D := by
  have hN : D * (N / D) + N % D = N := Nat.div_add_mod N D
  have hr : N % D < D := Nat.mod_lt N hD
  unfold roundHalfEven
  simp only []
  generalize N / D = q at hN
  generalize N % D = r at hN hr
  have e : D * (q + 1) = D * q + D := by ring
  split_ifs <;> (try rw [e]) <;> omega

/-- The relative error of `Double.ofRatio` is at most `2^-53`, stated without division. -/
theorem ofRatio_near (n d : Nat) (hn : 0 < n) (hd : 0 < d) :
    0 < (Double.ofRatio n d).den ∧
    d * (Double.ofRatio n d).num * 2 ^ 53 ≤ n * (Double.ofRatio n d).den * (2 ^ 53 + 1) ∧
    n * (Double.ofRatio n d).den * (2 ^ 53 - 1) ≤ d * (Double.ofRatio n d).num * 2 ^ 53 := by
  obtain ⟨ha, hb, h1, h2⟩ := binade_spec n d hn hd
  have hn0 : n ≠ 0 := by omega
  simp only [Double.ofRatio, hn0, if_false]
  generalize (binade (n + d + 54) n d 1 1).1 = a at *
  generalize (binade (n + d + 54) n d 1 1).2 = b at *
  have hD : 0 < d * b := Nat.mul_pos hd hb
  obtain ⟨r1, r2⟩ := roundHalfEven_near (n * a) (d * b) hD
  generalize roundHalfEven (n * a) (d * b) = m at *
  refine ⟨ha, ?_, ?_⟩
  · have e1 : d * (m * b) * 2 ^ 53 = 2 ^ 52 * (2 * (d * b * m)) := by ring
    have e2 : n * a * (2 ^ 53 + 1) = 2 ^ 52 * (2 * (n * a)) + n * a := by ring
    have e3 : 2 ^ 52 * (2 * (d * b * m)) ≤ 2 ^ 52 * (2 * (n * a) + d * b) :=
      Nat.mul_le_mul_left _ r2
    rw [e1, e2]
    have e4 : 2 ^ 52 * (2 * (n * a) + d * b) = 2 ^ 52 * (2 * (n * a)) + d * b * 2 ^ 52 := by ring
    omega
  · have e1 : d * (m * b) * 2 ^ 53 = 2 ^ 52 * (2 * (d * b * m)) := by ring
    have e3 : 2 ^ 52 * (2 * (n * a)) ≤ 2 ^ 52 * (2 * (d * b * m) + d * b) :=
      Nat.mul_le_mul_left _ r1
    have e4 : 2 ^ 52 * (2 * (d * b * m) + d * b) =
        2 ^ 52 * (2 * (d * b * m)) + d * b * 2 ^ 52 := by ring
    have e5 : n * a * (2 ^ 53 - 1) + n * a = 2 ^ 52 * (2 * (n * a)) := by
      have : (2 : Nat) ^ 53 - 1 + 1 = 2 ^ 53 := by norm_num
      calc n * a * (2 ^ 53 - 1) + n * a = n * a * (2 ^ 53 - 1 + 1) := by ring
        _ = 2 ^ 52 * (2 * (n * a)) := by rw [this]; ring
    rw [e1]
    omega

/-- Two roundings in a row: the product `(done / total) * 100` computed in doubles lies
within relative error `(1 ± 2^-53)^2` of `100 * done / total`, stated without division. -/
theorem percent_near (done total : Nat) (hdone : 0 < done) (ht : 0 < total) :
    0 < ((Double.div done total).mul 100).den ∧
    total * 2 ^ 106 * ((Double.div done total).mul 100).num ≤
      100 * done * (2 ^ 53 + 1) ^ 2 * ((Double.div done total).mul 100).den ∧
    100 * done * (2 ^ 53 - 1) ^ 2 * ((Double.div done total).mul 100).den ≤
      total * 2 ^ 106 * ((Double.div done total).mul 100).num := by
  obtain ⟨hqd, h1, h2⟩ := ofRatio_near done total hdone ht
  simp only [Double.div, Double.mul]
  generalize (Double.ofRatio done total).num = qn at *
  generalize (Double.ofRatio done total).den = qd at *
  have hqn : 0 < qn := by
    rcases Nat.eq_zero_or_pos qn with h0 | h0
    · subst h0
      have hpos : 0 < done * qd * (2 ^ 53 - 1) := by positivity
      omega
    · exact h0
  obtain ⟨hpd, h3, h4⟩ := ofRatio_near (qn * 100) qd (by omega) hqd
  generalize (Double.ofRatio (qn * 100) qd).num = pn at *
  generalize (Double.ofRatio (qn * 100) qd).den = pd at *
  refine ⟨hpd, ?_, ?_⟩
  · have k1 := Nat.mul_le_mul_left (total * 2 ^ 53) h3
    have k2 := Nat.mul_le_mul_left (100 * pd * (2 ^ 53 + 1)) h1
    have k3 : (total * 2 ^ 106 * pn) * qd ≤ (100 * done * (2 ^ 53 + 1) ^ 2 * pd) * qd := by
      calc (total * 2 ^ 106 * pn) * qd = total * 2 ^ 53 * (qd * pn * 2 ^ 53) := by ring
        _ ≤ total * 2 ^ 53 * (qn * 100 * pd * (2 ^ 53 + 1)) := k1
        _ = 100 * pd * (2 ^ 53 + 1) * (total * qn * 2 ^ 53) := by ring
        _ ≤ 100 * pd * (2 ^ 53 + 1) * (done * qd * (2 ^ 53 + 1)) := k2
        _ = (100 * done * (2 ^ 53 + 1) ^ 2 * pd) * qd := by ring
    exact Nat.le_of_mul_le_mul_right k3 hqd
  · have k1 := Nat.mul_le_mul_left (total * 2 ^ 53) h4
    have k2 := Nat.mul_le_mul_left (100 * pd * (2 ^ 53 - 1)) h2
    have k3 : (100 * done * (2 ^ 53 - 1) ^ 2 * pd) * qd ≤ (total * 2 ^ 106 * pn) * qd := by
      calc (100 * done * (2 ^ 53 - 1) ^ 2 * pd) * qd
          = 100 * pd * (2 ^ 53 - 1) * (done * qd * (2 ^ 53 - 1)) := by ring
        _ ≤ 100 * pd * (2 ^ 53 - 1) * (total * qn * 2 ^ 53) := k2
        _ = total * 2 ^ 53 * (qn * 100 * pd * (2 ^ 53 - 1)) := by ring
        _ ≤ total * 2 ^ 53 * (qd * pn * 2 ^ 53) := k1
        _ = (total * 2 ^ 106 * pn) * qd := by ring
    exact Nat.le_of_mul_le_mul_right k3 hqd

/-- Away from exact halves the double-precision progress is the exactly rounded
percentage: for `done ≤ total < 2^32` (the length of a JavaScript array is below
`2^32`) with `100 * done / total` not half-way between two integers,
`Math.round((done / total) * 100)` is `100 * done / total` rounded to the nearest
integer. -/
theorem round_percent_eq_exactPercent (done total : Nat) (ht : 0 < total)
    (hle : done ≤ total) (hsize : total < 2 ^ 32)
    (hhalf : (200 * done + total) % (2 * total) ≠ 0) :
    Math.round ((Double.div done total).mul 100) = exactPercent done total := by
  rcases Nat.eq_zero_or_pos done with h0 | hdone
  · subst h0
    have e : (Double.div 0 total).mul 100 = { num := 0, den := 1 } := by
      simp [Double.div, Double.mul, Double.ofRatio]
    rw [e]
    simp only [Math.round, exactPercent]
    rw [Nat.div_eq_of_lt (by omega), Nat.div_eq_of_lt (by omega)]
  · obtain ⟨hpd, hhi, hlo⟩ := percent_near done total hdone ht
    simp only [Math.round, exactPercent]
    generalize ((Double.div done total).mul 100).num = pn at *
    generalize ((Double.div done total).mul 100).den = pd at *
    have hE : 2 * total * ((200 * done + total) / (2 * total)) +
        (200 * done + total) % (2 * total) = 200 * done + total := Nat.div_add_mod _ _
    have hr : (200 * done + total) % (2 * total) < 2 * total := Nat.mod_lt _ (by omega)
    generalize (200 * done + total) / (2 * total) = E at *
    generalize (200 * done + total) % (2 * total) = r at *
    have hr1 : 1 ≤ r := by omega
    -- everything in the rationals
    have hpdQ : (0 : ℚ) < pd := by exact_mod_cast hpd
    have htQ : (0 : ℚ) < total := by exact_mod_cast ht
    have hhiQ : (total : ℚ) * 2 ^ 106 * pn ≤ 100 * done * (2 ^ 53 + 1) ^ 2 * pd := by
      exact_mod_cast hhi
    have hloQ : 100 * (done : ℚ) * (2 ^ 53 - 1) ^ 2 * pd ≤ total * 2 ^ 106 * pn := by
      have hc : ((100 * done * (2 ^ 53 - 1) ^ 2 * pd : ℕ) : ℚ) ≤
          ((total * 2 ^ 106 * pn : ℕ) : ℚ) := by exact_mod_cast hlo
      push_cast at hc
      linarith
    have hEQ : 2 * (total : ℚ) * E + r = 200 * done + total := by exact_mod_cast hE
    have hrQ : (r : ℚ) + 1 ≤ 2 * total := by exact_mod_cast hr
    have hr1Q : (1 : ℚ) ≤ r := by exact_mod_cast hr1
    have hleQ : (done : ℚ) ≤ total := by exact_mod_cast hle
    have hsizeQ : (total : ℚ) ≤ 2 ^ 32 := by
      have : total ≤ 2 ^ 32 := by omega
      exact_mod_cast this
    have hdQ : (0 : ℚ) ≤ done := by positivity
    apply Nat.div_eq_of_lt_le
    · -- E * (2 * pd) ≤ 2 * pn + pd
      have goalQ : (E : ℚ) * (2 * pd) ≤ 2 * pn + pd := by
        have hnum : 200 * (done : ℚ) * (2 * 2 ^ 53 - 1) ≤ r * 2 ^ 106 := by
          have : 200 * (done : ℚ) * (2 * 2 ^ 53 - 1) ≤ 200 * 2 ^ 32 * (2 * 2 ^ 53 - 1) := by
            have hpos : (0 : ℚ) ≤ 200 * (2 * 2 ^ 53 - 1) := by norm_num
            nlinarith
          have h2 : (200 : ℚ) * 2 ^ 32 * (2 * 2 ^ 53 - 1) ≤ 1 * 2 ^ 106 := by norm_num
          have h3 : (1 : ℚ) * 2 ^ 106 ≤ r * 2 ^ 106 := by
            apply mul_le_mul_of_nonneg_right hr1Q; positivity
          linarith
        have hmul := mul_le_mul_of_nonneg_right hnum hpdQ.le
        have key : (total : ℚ) * 2 ^ 106 * ((E : ℚ) * (2 * pd)) ≤
            total * 2 ^ 106 * (2 * pn + pd) := by
          have e1 : (total : ℚ) * 2 ^ 106 * ((E : ℚ) * (2 * pd)) =
              2 ^ 106 * pd * (200 * done + total - r) := by
            rw [← hEQ]; ring
          rw [e1]
          nlinarith
        exact le_of_mul_le_mul_left key (by positivity)
      exact_mod_cast goalQ
    · -- 2 * pn + pd < (E + 1) * (2 * pd)
      have goalQ : 2 * (pn : ℚ) + pd < ((E : ℚ) + 1) * (2 * pd) := by
        have hnum : 200 * (done : ℚ) * (2 * 2 ^ 53 + 1) < (2 * total - r) * 2 ^ 106 := by
          have : 200 * (done : ℚ) * (2 * 2 ^ 53 + 1) ≤ 200 * 2 ^ 32 * (2 * 2 ^ 53 + 1) := by
            have hpos : (0 : ℚ) ≤ 200 * (2 * 2 ^ 53 + 1) := by norm_num
            nlinarith
          have h2 : (200 : ℚ) * 2 ^ 32 * (2 * 2 ^ 53 + 1) < 1 * 2 ^ 106 := by norm_num
          have h3 : (1 : ℚ) * 2 ^ 106 ≤ (2 * total - r) * 2 ^ 106 := by
            apply mul_le_mul_of_nonneg_right (by linarith); positivity
          linarith
        have hmul := mul_lt_mul_of_pos_right hnum hpdQ
        have key : (total : ℚ) * 2 ^ 106 * (2 * pn + pd) <
            total * 2 ^ 106 * (((E : ℚ) + 1) * (2 * pd)) := by
          have e1 : (total : ℚ) * 2 ^ 106 * (((E : ℚ) + 1) * (2 * pd)) =
              2 ^ 106 * pd * (200 * done + total - r + 2 * total) := by
            rw [← hEQ]; ring
          rw [e1]
          nlinarith
        exact lt_of_mul_lt_mul_left key (by positivity)
      exact_mod_cast goalQ

/-- Away from exact halves `getTaskStats()` rounds as intended: for a store whose list
is not empty and shorter than `2^32`, with `100 * done / total` not half-way between
two integers, the progress is `100 * done / total` rounded to the nearest integer. -/
theorem getTaskStats_progress_off_half (env : Env) (m : TaskModel)
    (hpos : 0 < m.tasks.length) (hsize : m.tasks.length < 2 ^ 32)
    (hhalf : (200 * (m.getTaskStats env).done + (m.getTaskStats env).total) %
      (2 * (m.getTaskStats env).total) ≠ 0) :
    (m.getTaskStats env).progress =
      exactPercent (m.getTaskStats env).done (m.getTaskStats env).total := by
  have hle : (m.getTasksByStatus (JsVal.str "已完成")).length ≤ m.tasks.length :=
    List.length_filter_le _ _
  simp only [TaskModel.getTaskStats] at hhalf ⊢
  rw [if_pos hpos]
  exact round_percent_eq_exactPercent _ _ hpos hle hsize hhalf

/-! ## Statistics -/

/-- C1 (the code at the failing input): the progress of the empty store is 0, but in a
store of forty tasks of which twenty-three have status 已完成, `getTaskStats().progress`
is 57, while `23 / 40 * 100 = 57.5` rounded to the nearest integer with halves up is
58: the double `23 / 40` times 100 is the double just below 57.5. -/
theorem getTaskStats_progress_forty :
    (TaskModel.new.getTaskStats sampleEnv).progress = 0 ∧
    (fortyTasks.getTaskStats sampleEnv).total = 40 ∧
    (fortyTasks.getTaskStats sampleEnv).done = 23 ∧
    (fortyTasks.getTaskStats sampleEnv).progress = 57 ∧
    exactPercent 23 40 = 58 := by
  decide

/-- C2: for every task list, `total` of `getTaskStats()` is `todo + doing + done` plus
the number of tasks whose status is none of 待处理, 进行中, 已完成; when every status is
one of the three, `total = todo + doing + done`. -/
theorem getTaskStats_total_split (env : Env) (m : TaskModel) :
    (m.getTaskStats env).total =
        (m.getTaskStats env).todo + (m.getTaskStats env).doing + (m.getTaskStats env).done +
          (m.tasks.filter otherStatus).length ∧
    ((∀ task ∈ m.tasks, task.status = JsVal.str "待处理" ∨ task.status = JsVal.str "进行中" ∨
        task.status = JsVal.str "已完成") →
      (m.getTaskStats env).total =
        (m.getTaskStats env).todo + (m.getTaskStats env).doing + (m.getTaskStats env).done) := by
  have key := length_split m.tasks
  refine ⟨?_, ?_⟩
  · simpa [TaskModel.getTaskStats, TaskModel.getTasksByStatus] using key
  · intro h
    have hn : m.tasks.filter otherStatus = [] := by
      apply filter_otherStatus_nil
      intro task ht
      rcases h task ht with h1 | h1 | h1 <;> simp [otherStatus, h1, JsVal.strictEq]
    rw [hn] at key
    simpa [TaskModel.getTaskStats, TaskModel.getTasksByStatus] using key

/-- Witness of `getTaskStats_total_split` on the store of forty tasks. -/
theorem getTaskStats_total_split_witness :
    (∀ task ∈ fortyTasks.tasks, task.status = JsVal.str "待处理" ∨
        task.status = JsVal.str "进行中" ∨ task.status = JsVal.str "已完成") ∧
    (fortyTasks.getTaskStats sampleEnv).total =
      (fortyTasks.getTaskStats sampleEnv).todo + (fortyTasks.getTaskStats sampleEnv).doing +
        (fortyTasks.getTaskStats sampleEnv).done :=
  ⟨by decide, (getTaskStats_total_split sampleEnv fortyTasks).2 (by decide)⟩

/-! ## Normalisation -/

theorem formatTask_status (env : Env) (i : Nat) (raw : JsObj) :
    (formatTask env i raw).status =
      if (raw.get "status").truthy then raw.get "status" else JsVal.str "待处理" := by
  simp [formatTask, Task.status, JsObj.get, List.lookup, JsVal.orElse]

theorem formatTasksFrom_enumFrom (env : Env) (raws : List JsObj) (k : Nat) :
    formatTasksFrom env k raws = (raws.enumFrom k).map (fun p => formatTask env p.1 p.2) := by
  induction raws generalizing k with
  | nil => rfl
  | cons raw rest ih => simp [formatTasksFrom, List.enumFrom, ih]

theorem formatTasksFrom_length (env : Env) (raws : List JsObj) (k : Nat) :
    (formatTasksFrom env k raws).length = raws.length := by
  induction raws generalizing k with
  | nil => rfl
  | cons raw rest ih => simp [formatTasksFrom, ih]

theorem formatTasksFrom_status (env : Env) (raws : List JsObj) (k : Nat) :
    (formatTasksFrom env k raws).map Task.status =
      raws.map (fun raw =>
        if (raw.get "status").truthy then raw.get "status" else JsVal.str "待处理") := by
  induction raws generalizing k with
  | nil => rfl
  | cons raw rest ih => simp [formatTasksFrom, ih, formatTask_status]

theorem createTask_tasks (env : Env) (v : ApiValue) (taskData : JsObj) (m : TaskModel) :
    (m.createTask env (Except.ok v) taskData).model.tasks =
      m.tasks ++ [formatTask env 0 v.asRecord] := by
  simp [TaskModel.createTask, formatTasks, formatTasksFrom]

/-- C3 (counterexample): loading one raw record whose status is 已取消 leaves a task in
the store whose status is not one of the four enumerated values. -/
theorem loadGroupTasks_status_not_enumerated :
    ¬ (∀ task ∈ (TaskModel.new.loadGroupTasks sampleEnv
          (Except.ok (ApiValue.array [rawCancelled])) (JsVal.num 1)).model.tasks,
        task.status ∈ statuses) := by
  decide

/-- C3 (amended): after `loadGroupTasks` the statuses of the stored tasks are, record by
record, the raw status when it is truthy and 待处理 when it is missing or falsy; the
task appended by `createTask` gets its status from the response in the same way. A
truthy status is kept whether or not it is one of the four enumerated values. -/
theorem formatTasks_status_default (env : Env) (raws : List JsObj) (groupId : JsVal)
    (v : ApiValue) (taskData : JsObj) (m : TaskModel) :
    (m.loadGroupTasks env (Except.ok (ApiValue.array raws)) groupId).model.tasks.map
        Task.status =
      raws.map (fun raw =>
        if (raw.get "status").truthy then raw.get "status" else JsVal.str "待处理") ∧
    (m.createTask env (Except.ok v) taskData).model.tasks.map Task.status =
      m.tasks.map Task.status ++
        [if (v.asRecord.get "status").truthy then v.asRecord.get "status"
         else JsVal.str "待处理"] := by
  refine ⟨?_, ?_⟩
  · simp only [TaskModel.loadGroupTasks, formatTasks]
    exact formatTasksFrom_status env raws 0
  · rw [createTask_tasks]
    simp [formatTask_status]

/-! ## Overdue tasks -/

theorem formatTask_isOverdue_eq (env env0 : Env) (i : Nat) (raw : JsObj) :
    (formatTask env0 i raw).isOverdue env = JsVal.bool (dueBefore env (formatTask env0 i raw)) := by
  have ha : (formatTask env0 i raw).accessors = true := rfl
  simp only [Task.isOverdue, Task.get, ha, if_true, isOverdueGetter, dueBefore, Task.dueDate]
  cases h : ((formatTask env0 i raw).props.get "dueDate").truthy
  · simp
  · cases h2 : env.parseDate ((formatTask env0 i raw).props.get "dueDate") <;> simp

/-- C4 (counterexample): the normalized task of a raw record with status 已完成 and a
due date before the current time has `isOverdue` true. -/
theorem isOverdue_of_finished_task :
    (formatTask sampleEnv 0 rawDoneLate).status = JsVal.str "已完成" ∧
    sampleEnv.parseDate (formatTask sampleEnv 0 rawDoneLate).dueDate = some 5 ∧
    (5 : Int) < sampleEnv.now ∧
    (formatTask sampleEnv 0 rawDoneLate).isOverdue sampleEnv = JsVal.bool true := by
  decide

/-- C4 (amended): for every normalized task and every current time, `isOverdue` is true
exactly when the due date is set and lies before the current time, whatever the
status, and false otherwise; a task without due date is never overdue. The condition
"status is not 已完成" is applied by `getTaskStats()`, whose `overdue` counts the
tasks that are past due and not finished. -/
theorem isOverdue_ignores_status (env env0 : Env) (i : Nat) (raw : JsObj) (raws : List JsObj) :
    ((formatTask env0 i raw).isOverdue env = JsVal.bool true ↔
      (formatTask env0 i raw).dueDate.truthy = true ∧
        ∃ due, env.parseDate (formatTask env0 i raw).dueDate = some due ∧ due < env.now) ∧
    ((formatTask env0 i raw).isOverdue env = JsVal.bool true ∨
      (formatTask env0 i raw).isOverdue env = JsVal.bool false) ∧
    ((formatTask env0 i raw).dueDate.truthy = false →
      (formatTask env0 i raw).isOverdue env = JsVal.bool false) ∧
    (TaskModel.getTaskStats env { tasks := formatTasks env0 raws }).overdue =
      ((formatTasks env0 raws).filter (fun task =>
        dueBefore env task && !(task.status.strictEq (JsVal.str "已完成")))).length := by
  refine ⟨?_, ?_, ?_, ?_⟩
  · rw [formatTask_isOverdue_eq]
    unfold dueBefore
    cases h : (formatTask env0 i raw).dueDate.truthy
    · simp
    · cases h2 : env.parseDate (formatTask env0 i raw).dueDate <;> simp
  · rw [formatTask_isOverdue_eq]
    cases dueBefore env (formatTask env0 i raw) <;> simp
  · intro h
    rw [formatTask_isOverdue_eq]
    simp [dueBefore, h]
  · simp only [TaskModel.getTaskStats]
    congr 1
    apply List.filter_congr
    intro task ht
    simp only [formatTasks, formatTasksFrom_enumFrom, List.mem_map] at ht
    obtain ⟨p, _, rfl⟩ := ht
    rw [formatTask_isOverdue_eq]
    cases dueBefore env (formatTask env0 p.1 p.2) <;> simp [JsVal.andThen, JsVal.truthy]

/-- Witness of `isOverdue_ignores_status`: a task without due date. -/
theorem isOverdue_ignores_status_witness :
    (formatTask sampleEnv 0 rawPlain).dueDate.truthy = false ∧
    (formatTask sampleEnv 0 rawPlain).isOverdue sampleEnv = JsVal.bool false :=
  ⟨by decide, (isOverdue_ignores_status sampleEnv sampleEnv 0 rawPlain []).2.2.1 (by decide)⟩

/-! ## Loading -/

/-- C5: after a successful `loadGroupTasks` whose response is an array of raw records,
the store's list is the normalization of those records, one task per record in the
same order, so of the same length, whatever the store held before; a successful
response that is not an array empties the list. -/
theorem loadGroupTasks_replaces (env : Env) (groupId : JsVal) (m : TaskModel)
    (raws : List JsObj) :
    (m.loadGroupTasks env (Except.ok (ApiValue.array raws)) groupId).model.tasks =
      formatTasks env raws ∧
    formatTasks env raws = raws.enum.map (fun p => formatTask env p.1 p.2) ∧
    (m.loadGroupTasks env (Except.ok (ApiValue.array raws)) groupId).model.tasks.length =
      raws.length ∧
    (m.loadGroupTasks env (Except.ok (ApiValue.array raws)) groupId).result =
      Except.ok (formatTasks env raws) ∧
    (∀ m0 : TaskModel,
      (m0.loadGroupTasks env (Except.ok (ApiValue.array raws)) groupId).model.tasks =
        (m.loadGroupTasks env (Except.ok (ApiValue.array raws)) groupId).model.tasks) ∧
    (∀ r : JsObj,
      (m.loadGroupTasks env (Except.ok (ApiValue.record r)) groupId).model.tasks = []) ∧
    (m.loadGroupTasks env (Except.ok ApiValue.other) groupId).model.tasks = [] := by
  refine ⟨rfl, ?_, ?_, rfl, fun _ => rfl, fun _ => rfl, rfl⟩
  · exact formatTasksFrom_enumFrom env raws 0
  · exact formatTasksFrom_length env raws 0

/-! ## Creating a task -/

theorem length_filter_append_singleton (p : Task → Bool) (tasks : List Task) (task : Task) :
    ((tasks ++ [task]).filter p).length =
      (tasks.filter p).length + (if p task then 1 else 0) := by
  by_cases h : p task = true
  · simp [List.filter_append, List.filter_cons, h]
  · simp [List.filter_append, List.filter_cons, h]

/-- C6 (counterexample): on the empty store, a successful `createTask` of an input with
status 待处理, answered by the backend with a record of status 进行中, leaves `todo`
at 0 instead of raising it to 1. -/
theorem createTask_todo_not_increased :
    inputReport.get "status" = JsVal.str "待处理" ∧
    (TaskModel.new.createTask sampleEnv (Except.ok responseDoing) inputReport).succeeded = true ∧
    (TaskModel.new.getTaskStats sampleEnv).todo = 0 ∧
    ((TaskModel.new.createTask sampleEnv (Except.ok responseDoing) inputReport).model.getTaskStats
        sampleEnv).todo = 0 := by
  decide

/-- C6 (amended): a successful `createTask` appends the normalization of the backend's
response record after the existing tasks, which stay unchanged and in order, and
raises `total` by exactly 1; `todo` rises by exactly 1 when the status of the response
record is missing, falsy or 待处理, and stays as it was otherwise. The status of the
input is not consulted. -/
theorem createTask_appends_response (env : Env) (v : ApiValue) (taskData : JsObj)
    (m : TaskModel) :
    (m.createTask env (Except.ok v) taskData).model.tasks =
      m.tasks ++ [formatTask env 0 v.asRecord] ∧
    (m.createTask env (Except.ok v) taskData).result =
      Except.ok (formatTask env 0 v.asRecord) ∧
    ((m.createTask env (Except.ok v) taskData).model.getTaskStats env).total =
      (m.getTaskStats env).total + 1 ∧
    ((v.asRecord.get "status").truthy = false ∨ v.asRecord.get "status" = JsVal.str "待处理" →
      ((m.createTask env (Except.ok v) taskData).model.getTaskStats env).todo =
        (m.getTaskStats env).todo + 1) ∧
    ((v.asRecord.get "status").truthy = true ∧ v.asRecord.get "status" ≠ JsVal.str "待处理" →
      ((m.createTask env (Except.ok v) taskData).model.getTaskStats env).todo =
        (m.getTaskStats env).todo) := by
  have ht := createTask_tasks env v taskData m
  refine ⟨ht, ?_, ?_, ?_, ?_⟩
  · simp [TaskModel.createTask, formatTasks, formatTasksFrom]
  · simp [TaskModel.getTaskStats, ht]
  · intro h
    simp only [TaskModel.getTaskStats, TaskModel.getTasksByStatus, ht,
      length_filter_append_singleton, formatTask_status]
    rcases h with h | h
    · simp [h, JsVal.strictEq]
    · rw [h]; simp [JsVal.strictEq, JsVal.truthy]
  · intro h
    simp only [TaskModel.getTaskStats, TaskModel.getTasksByStatus, ht,
      length_filter_append_singleton, formatTask_status]
    have hne : (v.asRecord.get "status").strictEq (JsVal.str "待处理") = false := by
      rw [Bool.eq_false_iff]; intro hs; exact h.2 ((strictEq_str_iff _ _).1 hs)
    simp [h.1, hne]

/-- Witness of `createTask_appends_response`: the response carries no status. -/
theorem createTask_appends_response_witness :
    ((responseIdOnly.asRecord.get "status").truthy = false ∨
      responseIdOnly.asRecord.get "status" = JsVal.str "待处理") ∧
    ((twoTasks.createTask sampleEnv (Except.ok responseIdOnly) inputReport).model.getTaskStats
        sampleEnv).todo = (twoTasks.getTaskStats sampleEnv).todo + 1 :=
  ⟨by decide,
   (createTask_appends_response sampleEnv responseIdOnly inputReport twoTasks).2.2.2.1
     (by decide)⟩

/-- C7 (counterexample): `createTask` of the input with title Write report, priority 高
and status 待处理 on the empty store, answered by a record that carries only the new
id, yields one task, whose priority is 中 and not 高. -/
theorem createTask_priority_not_input :
    inputReport.get "priority" = JsVal.str "高" ∧
    (TaskModel.new.createTask sampleEnv (Except.ok responseIdOnly) inputReport).succeeded = true ∧
    (TaskModel.new.createTask sampleEnv (Except.ok responseIdOnly) inputReport).model.tasks.map
        Task.priority = [JsVal.str "中"] := by
  decide

/-- C7 (amended): a successful `createTask` on the empty store yields a store of size 1
whose single task is the normalization of the backend's response record: its priority
and status are those of the response (中 and 待处理 when the response has none),
hence equal to the input's `p` and `s` when the response echoes them, and `isOverdue`
is false when the response carries no due date. -/
theorem createTask_on_empty (env env1 : Env) (v : ApiValue) (taskData : JsObj) (p s : JsVal) :
    (TaskModel.new.createTask env (Except.ok v) taskData).model.tasks =
      [formatTask env 0 v.asRecord] ∧
    (TaskModel.new.createTask env (Except.ok v) taskData).model.tasks.length = 1 ∧
    (formatTask env 0 v.asRecord).priority =
      (if (v.asRecord.get "priority").truthy then v.asRecord.get "priority"
       else JsVal.str "中") ∧
    (formatTask env 0 v.asRecord).status =
      (if (v.asRecord.get "status").truthy then v.asRecord.get "status"
       else JsVal.str "待处理") ∧
    (p.truthy = true → v.asRecord.get "priority" = p →
      (formatTask env 0 v.asRecord).priority = p) ∧
    (s.truthy = true → v.asRecord.get "status" = s →
      (formatTask env 0 v.asRecord).status = s) ∧
    ((v.asRecord.get "due_date").truthy = false → (v.asRecord.get "dueDate").truthy = false →
      (formatTask env 0 v.asRecord).isOverdue env1 = JsVal.bool false) := by
  have ht := createTask_tasks env v taskData TaskModel.new
  have hp : (formatTask env 0 v.asRecord).priority =
      (if (v.asRecord.get "priority").truthy then v.asRecord.get "priority"
       else JsVal.str "中") := by
    simp [formatTask, Task.priority, JsObj.get, List.lookup, JsVal.orElse]
  refine ⟨by simpa [TaskModel.new] using ht, by rw [ht]; simp [TaskModel.new], hp,
    formatTask_status env 0 _, ?_, ?_, ?_⟩
  · intro h1 h2
    rw [hp, h2, h1]; rfl
  · intro h1 h2
    rw [formatTask_status, h2, h1]; rfl
  · intro h1 h2
    rw [formatTask_isOverdue_eq]
    have hd : (formatTask env 0 v.asRecord).dueDate = JsVal.null := by
      have e : (formatTask env 0 v.asRecord).dueDate =
          ((v.asRecord.get "due_date").orElse (v.asRecord.get "dueDate")).orElse JsVal.null := by
        simp [formatTask, Task.dueDate, JsObj.get, List.lookup]
      rw [e]
      simp [JsVal.orElse, h1, h2]
    simp [dueBefore, hd, JsVal.truthy]

/-- Witness of `createTask_on_empty`: the response echoes priority 高 and status 待处理
and carries no due date. -/
theorem createTask_on_empty_witness :
    (JsVal.str "高").truthy = true ∧
    (ApiValue.record inputReport).asRecord.get "priority" = JsVal.str "高" ∧
    (formatTask sampleEnv 0 (ApiValue.record inputReport).asRecord).priority = JsVal.str "高" ∧
    (formatTask sampleEnv 0 (ApiValue.record inputReport).asRecord).status = JsVal.str "待处理" ∧
    (formatTask sampleEnv 0 (ApiValue.record inputReport).asRecord).isOverdue sampleEnv =
      JsVal.bool false :=
  ⟨by decide, by decide,
   (createTask_on_empty sampleEnv sampleEnv (ApiValue.record inputReport) inputReport
      (JsVal.str "高") (JsVal.str "待处理")).2.2.2.2.1 (by decide) (by decide),
   (createTask_on_empty sampleEnv sampleEnv (ApiValue.record inputReport) inputReport
      (JsVal.str "高") (JsVal.str "待处理")).2.2.2.2.2.1 (by decide) (by decide),
   (createTask_on_empty sampleEnv sampleEnv (ApiValue.record inputReport) inputReport
      (JsVal.str "高") (JsVal.str "待处理")).2.2.2.2.2.2 (by decide) (by decide)⟩

/-- C8 (counterexample): `createTask` of an input whose title is the empty string, on
the empty store with the backend accepting the call, returns normally, has issued the
backend call and has added a task to the list. -/
theorem createTask_empty_title_accepted :
    inputNoTitle.get "title" = JsVal.str "" ∧
    (TaskModel.new.createTask sampleEnv (Except.ok responseIdOnly) inputNoTitle).succeeded = true ∧
    (TaskModel.new.createTask sampleEnv (Except.ok responseIdOnly) inputNoTitle).calls =
      [ApiCall.createTask (formattedData inputNoTitle)] ∧
    (TaskModel.new.createTask sampleEnv (Except.ok responseIdOnly) inputNoTitle).model.tasks.length
      = 1 := by
  decide

/-- C8 (amended): the store's `createTask` does not examine the title. For every input,
an empty or missing title included, it issues exactly one backend call; it fails only
when that call fails, with the backend's error and the list unchanged, and when the call
succeeds it returns normally and the list has grown by the new task. -/
theorem createTask_no_validation (env : Env) (taskData : JsObj) (m : TaskModel)
    (error : JsError) (v : ApiValue) :
    (m.createTask env (Except.error error) taskData).calls =
      [ApiCall.createTask (formattedData taskData)] ∧
    (m.createTask env (Except.ok v) taskData).calls =
      [ApiCall.createTask (formattedData taskData)] ∧
    (m.createTask env (Except.error error) taskData).result = Except.error error ∧
    (m.createTask env (Except.error error) taskData).model = m ∧
    (m.createTask env (Except.ok v) taskData).succeeded = true ∧
    (m.createTask env (Except.ok v) taskData).model.tasks.length = m.tasks.length + 1 := by
  refine ⟨rfl, rfl, rfl, rfl, rfl, ?_⟩
  simp [createTask_tasks]

/-! ## The request of `createTask` -/

/-- C9 (the code on every input, and at the failing input): the object the store hands
to `api.createTask` has the keys title, description, status, priority, assignee,
due_date and group_id, while `api.createTask` reads task_desc, group_id and leader_id
(or leaderId) from it. So the data given to `apiRequest` has task_desc and leader_id
undefined, and the body sent holds at most the member group_id: for the input with title
Write report and group id 3 the body is the single member group_id = 3, without the
task text. -/
theorem createTask_request_lacks_task_desc (env : Env) (response : Except JsError ApiValue)
    (taskData : JsObj) (m : TaskModel) :
    (m.createTask env response taskData).calls =
      [ApiCall.createTask (formattedData taskData)] ∧
    (api.createTask (formattedData taskData)).endpoint = "/task/create" ∧
    (api.createTask (formattedData taskData)).method = "POST" ∧
    (api.createTask (formattedData taskData)).data =
      some [("task_desc", JsVal.undefined), ("group_id", taskData.get "groupId"),
            ("leader_id", JsVal.undefined)] ∧
    (api.createTask (formattedData taskData)).body =
      some (jsonMembers [("group_id", taskData.get "groupId")]) ∧
    inputReport.get "title" = JsVal.str "Write report" ∧
    (api.createTask (formattedData inputReport)).body = some [("group_id", JsVal.num 3)] := by
  refine ⟨?_, rfl, rfl, ?_, ?_, by decide, by decide⟩
  · cases response <;> rfl
  · simp [api.createTask, apiRequest, formattedData, JsObj.get, List.lookup, JsVal.orElse,
      JsVal.truthy]
  · simp [api.createTask, apiRequest, formattedData, JsObj.get, List.lookup, JsVal.orElse,
      JsVal.truthy, jsonMembers]

/-! ## Updating a status -/

theorem JsObj.get_set_same (o : JsObj) (k : String) (v : JsVal) : (o.set k v).get k = v := by
  induction o with
  | nil => simp [JsObj.set, JsObj.get, List.lookup]
  | cons entry rest ih =>
    obtain ⟨k0, v0⟩ := entry
    by_cases h : k0 = k
    · simp [JsObj.set, JsObj.get, List.lookup, h]
    · have hb : (k == k0) = false := by
        rw [beq_eq_false_iff_ne]; exact fun e => h e.symm
      simp only [JsObj.set, h, if_false]
      simp only [JsObj.get, List.lookup, hb] at ih ⊢
      exact ih

theorem JsObj.get_set_other (o : JsObj) (k k1 : String) (v : JsVal) (hk : k1 ≠ k) :
    (o.set k v).get k1 = o.get k1 := by
  induction o with
  | nil =>
    have hb : (k1 == k) = false := by rw [beq_eq_false_iff_ne]; exact hk
    simp [JsObj.set, JsObj.get, List.lookup, hb]
  | cons entry rest ih =>
    obtain ⟨k0, v0⟩ := entry
    by_cases h : k0 = k
    · subst h
      have hb : (k1 == k0) = false := by rw [beq_eq_false_iff_ne]; exact hk
      simp [JsObj.set, JsObj.get, List.lookup, hb]
    · simp only [JsObj.set, h, if_false]
      by_cases h1 : k1 = k0
      · subst h1
        simp [JsObj.get, List.lookup]
      · have hb : (k1 == k0) = false := by rw [beq_eq_false_iff_ne]; exact h1
        simp only [JsObj.get, List.lookup, hb] at ih ⊢
        exact ih

theorem JsObj.keys_set_of_mem (o : JsObj) (k : String) (v : JsVal) (hk : k ∈ o.keys) :
    (o.set k v).keys = o.keys := by
  induction o with
  | nil => simp [JsObj.keys] at hk
  | cons entry rest ih =>
    obtain ⟨k0, v0⟩ := entry
    by_cases h : k0 = k
    · simp [JsObj.set, JsObj.keys, h]
    · have hr : k ∈ JsObj.keys rest := by
        simp only [JsObj.keys, List.map_cons, List.mem_cons] at hk
        rcases hk with hk | hk
        · exact absurd hk.symm h
        · exact hk
      have := ih hr
      simp only [JsObj.keys] at this
      simp [JsObj.set, JsObj.keys, h, this]

theorem findIndex_isSome_of_mem (taskId : JsVal) (tasks : List Task)
    (h : ∃ task ∈ tasks, task.id.strictEq taskId = true) :
    ∃ i, findIndex taskId tasks = some i := by
  induction tasks with
  | nil => obtain ⟨task, ht, _⟩ := h; simp at ht
  | cons task rest ih =>
    by_cases hc : task.id.strictEq taskId = true
    · exact ⟨0, by simp [findIndex, hc]⟩
    · obtain ⟨u, hu, hid⟩ := h
      have hr : ∃ task ∈ rest, task.id.strictEq taskId = true := by
        rcases List.mem_cons.1 hu with e | e
        · subst e; exact absurd hid hc
        · exact ⟨u, e, hid⟩
      obtain ⟨i, hi⟩ := ih hr
      exact ⟨i + 1, by simp [findIndex, hc, hi]⟩

theorem findIndex_spec (taskId : JsVal) (tasks : List Task) (i : Nat)
    (h : findIndex taskId tasks = some i) :
    (∃ task, tasks[i]? = some task ∧ task.id.strictEq taskId = true) ∧
    ∀ j u, j < i → tasks[j]? = some u → u.id.strictEq taskId = false := by
  induction tasks generalizing i with
  | nil => simp [findIndex] at h
  | cons task rest ih =>
    by_cases hc : task.id.strictEq taskId = true
    · simp only [findIndex, hc, if_true, Option.some.injEq] at h
      subst h
      exact ⟨⟨task, by simp, hc⟩, fun j u hj => absurd hj (Nat.not_lt_zero j)⟩
    · have hf : task.id.strictEq taskId = false := by simpa using hc
      cases hr : findIndex taskId rest with
      | none => simp [findIndex, hf, hr] at h
      | some i0 =>
        have hi : i0 + 1 = i := by simpa [findIndex, hf, hr] using h
        subst hi
        obtain ⟨⟨u, hu, hid⟩, hfirst⟩ := ih i0 hr
        refine ⟨⟨u, by simpa using hu, hid⟩, ?_⟩
        intro j w hj hw
        cases j with
        | zero =>
          simp only [List.getElem?_cons_zero, Option.some.injEq] at hw
          subst hw
          simpa using hc
        | succ j0 =>
          simp only [List.getElem?_cons_succ] at hw
          exact hfirst j0 w (by omega) hw

/-- C10: when the store holds a task with id `taskId` and the backend call succeeds,
`updateTaskStatus(taskId, status)` returns the first task with that id with its
status equal to `status`; the other stored properties of that task and its getters
are untouched, every other position of the list holds the task it held before, and
the length and order of the list are unchanged. -/
theorem updateTaskStatus_frame (m : TaskModel) (taskId status : JsVal) (v : ApiValue)
    (h : ∃ task ∈ m.tasks, task.id.strictEq taskId = true) :
    ∃ i task,
      m.tasks[i]? = some task ∧ task.id.strictEq taskId = true ∧
      (∀ j u, j < i → m.tasks[j]? = some u → u.id.strictEq taskId = false) ∧
      (m.updateTaskStatus (Except.ok v) taskId status).result =
        Except.ok (task.setStatus status) ∧
      (task.setStatus status).status = status ∧
      (∀ k, k ≠ "status" → (task.setStatus status).props.get k = task.props.get k) ∧
      ("status" ∈ task.props.keys → (task.setStatus status).props.keys = task.props.keys) ∧
      (task.setStatus status).accessors = task.accessors ∧
      (m.updateTaskStatus (Except.ok v) taskId status).model.tasks =
        m.tasks.set i (task.setStatus status) ∧
      (m.updateTaskStatus (Except.ok v) taskId status).model.tasks[i]? =
        some (task.setStatus status) ∧
      (∀ j, j ≠ i →
        (m.updateTaskStatus (Except.ok v) taskId status).model.tasks[j]? = m.tasks[j]?) ∧
      (m.updateTaskStatus (Except.ok v) taskId status).model.tasks.length = m.tasks.length := by
  obtain ⟨i, hi⟩ := findIndex_isSome_of_mem taskId m.tasks h
  obtain ⟨⟨task, hget, hid⟩, hfirst⟩ := findIndex_spec taskId m.tasks i hi
  have hlt : i < m.tasks.length := by
    rcases Nat.lt_or_ge i m.tasks.length with hlt | hge
    · exact hlt
    · rw [List.getElem?_eq_none hge] at hget; cases hget
  have htasks : (m.updateTaskStatus (Except.ok v) taskId status).model.tasks =
      m.tasks.set i (task.setStatus status) := by
    simp [TaskModel.updateTaskStatus, hi, hget]
  refine ⟨i, task, hget, hid, hfirst, ?_, ?_, ?_, ?_, rfl, htasks, ?_, ?_, ?_⟩
  · simp [TaskModel.updateTaskStatus, hi, hget]
  · simp [Task.setStatus, Task.status, JsObj.get_set_same]
  · intro k hk
    simp [Task.setStatus, JsObj.get_set_other _ _ _ _ hk]
  · intro hk
    simp [Task.setStatus, JsObj.keys_set_of_mem _ _ _ hk]
  · rw [htasks]
    simp [List.getElem?_set, hlt]
  · intro j hj
    rw [htasks]
    simp [List.getElem?_set, Ne.symm hj]
  · rw [htasks]
    simp

/-- Witness of `updateTaskStatus_frame`: the store of two tasks, id 2, status 已完成. -/
theorem updateTaskStatus_frame_witness :
    (∃ task ∈ twoTasks.tasks, task.id.strictEq (JsVal.num 2) = true) ∧
    ∃ i task,
      twoTasks.tasks[i]? = some task ∧ task.id.strictEq (JsVal.num 2) = true ∧
      (∀ j u, j < i → twoTasks.tasks[j]? = some u → u.id.strictEq (JsVal.num 2) = false) ∧
      (twoTasks.updateTaskStatus (Except.ok (ApiValue.record [])) (JsVal.num 2)
          (JsVal.str "已完成")).result = Except.ok (task.setStatus (JsVal.str "已完成")) ∧
      (task.setStatus (JsVal.str "已完成")).status = JsVal.str "已完成" ∧
      (∀ k, k ≠ "status" →
        (task.setStatus (JsVal.str "已完成")).props.get k = task.props.get k) ∧
      ("status" ∈ task.props.keys →
        (task.setStatus (JsVal.str "已完成")).props.keys = task.props.keys) ∧
      (task.setStatus (JsVal.str "已完成")).accessors = task.accessors ∧
      (twoTasks.updateTaskStatus (Except.ok (ApiValue.record [])) (JsVal.num 2)
          (JsVal.str "已完成")).model.tasks = twoTasks.tasks.set i (task.setStatus (JsVal.str "已完成")) ∧
      (twoTasks.updateTaskStatus (Except.ok (ApiValue.record [])) (JsVal.num 2)
          (JsVal.str "已完成")).model.tasks[i]? = some (task.setStatus (JsVal.str "已完成")) ∧
      (∀ j, j ≠ i →
        (twoTasks.updateTaskStatus (Except.ok (ApiValue.record [])) (JsVal.num 2)
          (JsVal.str "已完成")).model.tasks[j]? = twoTasks.tasks[j]?) ∧
      (twoTasks.updateTaskStatus (Except.ok (ApiValue.record [])) (JsVal.num 2)
          (JsVal.str "已完成")).model.tasks.length = twoTasks.tasks.length :=
  ⟨⟨formatTask sampleEnv 1 rawPlain, by decide, by decide⟩,
   updateTaskStatus_frame twoTasks (JsVal.num 2) (JsVal.str "已完成")
     (ApiValue.record []) ⟨formatTask sampleEnv 1 rawPlain, by decide, by decide⟩⟩

/-! ## Absent ids and failures of `updateTaskStatus` -/

theorem findIndex_eq_none (taskId : JsVal) (tasks : List Task)
    (h : ∀ task ∈ tasks, task.id.strictEq taskId = false) : findIndex taskId tasks = none := by
  induction tasks with
  | nil => rfl
  | cons task rest ih =>
    have h0 : task.id.strictEq taskId = false := h task (List.mem_cons_self _ _)
    have hr : findIndex taskId rest = none := ih (fun u hu => h u (List.mem_cons_of_mem _ hu))
    simp [findIndex, h0, hr]

theorem not_mem_of_findIndex_none (taskId : JsVal) (tasks : List Task)
    (h : findIndex taskId tasks = none) : ∀ task ∈ tasks, task.id.strictEq taskId = false := by
  intro task ht
  cases hs : task.id.strictEq taskId with
  | false => rfl
  | true =>
    obtain ⟨i, hi⟩ := findIndex_isSome_of_mem taskId tasks ⟨task, ht, hs⟩
    rw [h] at hi
    cases hi

theorem getElem_of_findIndex (taskId : JsVal) (tasks : List Task) (i : Nat)
    (h : findIndex taskId tasks = some i) : ∃ task, tasks[i]? = some task :=
  let ⟨task, ht, _⟩ := (findIndex_spec taskId tasks i h).1
  ⟨task, ht⟩

/-- C11: when no task of the store has id `taskId`, `updateTaskStatus(taskId, status)`
issues the backend call and, the backend having accepted it, fails with the error
任务不存在; the task list is left as it was, no task is added. -/
theorem updateTaskStatus_not_found (m : TaskModel) (taskId status : JsVal) (v : ApiValue)
    (h : ∀ task ∈ m.tasks, task.id.strictEq taskId = false) :
    (m.updateTaskStatus (Except.ok v) taskId status).calls =
      [ApiCall.updateTaskStatus taskId status] ∧
    (m.updateTaskStatus (Except.ok v) taskId status).result =
      Except.error { message := "任务不存在" } ∧
    (m.updateTaskStatus (Except.ok v) taskId status).model = m ∧
    (m.updateTaskStatus (Except.ok v) taskId status).model.tasks.length = m.tasks.length ∧
    (m.updateTaskStatus (Except.ok v) taskId status).events =
      [{ name := "task:updateError", data := Payload.error { message := "任务不存在" },
         store := m.tasks }] := by
  have hn := findIndex_eq_none taskId m.tasks h
  simp [TaskModel.updateTaskStatus, hn]

/-- Witness of `updateTaskStatus_not_found`: the store of two tasks has no id 5. -/
theorem updateTaskStatus_not_found_witness :
    (∀ task ∈ twoTasks.tasks, task.id.strictEq (JsVal.num 5) = false) ∧
    (twoTasks.updateTaskStatus (Except.ok (ApiValue.record [])) (JsVal.num 5)
        (JsVal.str "已完成")).result = Except.error { message := "任务不存在" } ∧
    (twoTasks.updateTaskStatus (Except.ok (ApiValue.record [])) (JsVal.num 5)
        (JsVal.str "已完成")).model = twoTasks :=
  ⟨by decide,
   (updateTaskStatus_not_found twoTasks (JsVal.num 5) (JsVal.str "已完成") (ApiValue.record [])
      (by decide)).2.1,
   (updateTaskStatus_not_found twoTasks (JsVal.num 5) (JsVal.str "已完成") (ApiValue.record [])
      (by decide)).2.2.1⟩

/-- C12: `updateTaskStatus` fails exactly when the backend call is rejected or no task
has the id. Whenever it fails, the store is what it was before the call, the only
event dispatched is task:updateError with the error that is then thrown to the
caller, and neither task:updated nor tasks:updated is dispatched; so the list read
from the store after a failed drop is the list before the drop. -/
theorem updateTaskStatus_failure_keeps_list (response : Except JsError ApiValue)
    (taskId status : JsVal) (m : TaskModel) :
    ((m.updateTaskStatus response taskId status).succeeded = false ↔
      ((∃ error, response = Except.error error) ∨
        ∀ task ∈ m.tasks, task.id.strictEq taskId = false)) ∧
    ((m.updateTaskStatus response taskId status).succeeded = false →
      (m.updateTaskStatus response taskId status).model = m ∧
      (m.updateTaskStatus response taskId status).model.getTasks = m.getTasks ∧
      (∃ error,
        (m.updateTaskStatus response taskId status).result = Except.error error ∧
        (m.updateTaskStatus response taskId status).events =
          [{ name := "task:updateError", data := Payload.error error, store := m.tasks }]) ∧
      ∀ ev ∈ (m.updateTaskStatus response taskId status).events,
        ev.name ≠ "task:updated" ∧ ev.name ≠ "tasks:updated") := by
  cases response with
  | error e =>
    refine ⟨⟨fun _ => Or.inl ⟨e, rfl⟩, fun _ => rfl⟩, fun _ => ?_⟩
    refine ⟨rfl, rfl, ⟨e, rfl, rfl⟩, ?_⟩
    intro ev hev
    simp only [TaskModel.updateTaskStatus, List.mem_singleton] at hev
    subst hev
    exact ⟨by simp, by simp⟩
  | ok v =>
    cases hf : findIndex taskId m.tasks with
    | none =>
      have hno := not_mem_of_findIndex_none taskId m.tasks hf
      refine ⟨⟨fun _ => Or.inr hno, fun _ => by simp [TaskModel.updateTaskStatus, hf,
        Outcome.succeeded]⟩, fun _ => ?_⟩
      refine ⟨by simp [TaskModel.updateTaskStatus, hf],
        by simp [TaskModel.updateTaskStatus, hf],
        ⟨{ message := "任务不存在" }, by simp [TaskModel.updateTaskStatus, hf],
          by simp [TaskModel.updateTaskStatus, hf]⟩, ?_⟩
      intro ev hev
      simp only [TaskModel.updateTaskStatus, hf, List.mem_singleton] at hev
      subst hev
      exact ⟨by simp, by simp⟩
    | some i =>
      obtain ⟨⟨task, hget, hid⟩, _⟩ := findIndex_spec taskId m.tasks i hf
      have hs : (m.updateTaskStatus (Except.ok v) taskId status).succeeded = true := by
        simp [TaskModel.updateTaskStatus, hf, hget, Outcome.succeeded]
      have hmem : task ∈ m.tasks := List.getElem?_mem hget
      refine ⟨⟨fun h => ?_, ?_⟩, fun h => ?_⟩
      · rw [hs] at h; cases h
      · rintro (⟨e, he⟩ | hno)
        · cases he
        · have := hno task hmem
          rw [hid] at this
          cases this
      · rw [hs] at h; cases h

/-- Witness of `updateTaskStatus_failure_keeps_list`: the backend rejects the call. -/
theorem updateTaskStatus_failure_keeps_list_witness :
    (twoTasks.updateTaskStatus (Except.error { message := "HTTP 500" }) (JsVal.num 2)
        (JsVal.str "已完成")).succeeded = false ∧
    (twoTasks.updateTaskStatus (Except.error { message := "HTTP 500" }) (JsVal.num 2)
        (JsVal.str "已完成")).model = twoTasks :=
  ⟨rfl,
   ((updateTaskStatus_failure_keeps_list (Except.error { message := "HTTP 500" }) (JsVal.num 2)
      (JsVal.str "已完成") twoTasks).2 rfl).1⟩

/-! ## Local edits: `updateTask` and `deleteTask` -/

theorem JsObj.assign_get_of_not_mem (source target : JsObj) (k : String)
    (hk : k ∉ source.keys) : (target.assign source).get k = target.get k := by
  induction source generalizing target with
  | nil => rfl
  | cons entry rest ih =>
    obtain ⟨k0, v0⟩ := entry
    simp only [JsObj.keys, List.map_cons, List.mem_cons, not_or] at hk
    have hrest : k ∉ JsObj.keys rest := hk.2
    have step : (target.assign ((k0, v0) :: rest)) = (target.set k0 v0).assign rest := rfl
    rw [step, ih (target.set k0 v0) hrest]
    exact JsObj.get_set_other target k0 k v0 hk.1

theorem JsObj.assign_get_of_mem (source target : JsObj) (k : String) (v : JsVal)
    (hnd : source.keys.Nodup) (hk : (k, v) ∈ source) : (target.assign source).get k = v := by
  induction source generalizing target with
  | nil => cases hk
  | cons entry rest ih =>
    obtain ⟨k0, v0⟩ := entry
    have step : (target.assign ((k0, v0) :: rest)) = (target.set k0 v0).assign rest := rfl
    simp only [JsObj.keys, List.map_cons, List.nodup_cons] at hnd
    rw [step]
    rcases List.mem_cons.1 hk with h | h
    · cases h
      rw [JsObj.assign_get_of_not_mem rest _ k hnd.1]
      exact JsObj.get_set_same target k v
    · exact ih (target.set k0 v0) hnd.2 h

theorem Task.spreadProps_get (env : Env) (t : Task) (k : String) :
    (t.spreadProps env).get k = t.get env k := by
  unfold Task.spreadProps Task.get
  cases t.accessors with
  | false => simp
  | true =>
    simp only [if_true]
    by_cases h3 : k = "priorityColor"
    · subst h3
      rw [JsObj.get_set_same]
      simp
    · rw [JsObj.get_set_other _ _ _ _ h3]
      by_cases h2 : k = "statusColor"
      · subst h2
        rw [JsObj.get_set_same]
        simp
      · rw [JsObj.get_set_other _ _ _ _ h2]
        by_cases h1 : k = "isOverdue"
        · subst h1
          rw [JsObj.get_set_same]
          simp
        · rw [JsObj.get_set_other _ _ _ _ h1]
          simp [h1, h2, h3]

theorem Task.merge_get_of_mem (env : Env) (t : Task) (updates : JsObj) (k : String)
    (v : JsVal) (hnd : updates.keys.Nodup) (hk : (k, v) ∈ updates) :
    (t.merge env updates).get env k = v := by
  simp only [Task.merge, Task.get]
  exact JsObj.assign_get_of_mem updates _ k v hnd hk

theorem Task.merge_get_of_not_mem (env : Env) (t : Task) (updates : JsObj) (k : String)
    (hk : k ∉ updates.keys) : (t.merge env updates).get env k = t.get env k := by
  have h : (t.merge env updates).get env k = ((t.spreadProps env).assign updates).get k := by
    simp [Task.merge, Task.get]
  rw [h, JsObj.assign_get_of_not_mem updates _ k hk, Task.spreadProps_get]

/-- C13: `updateTask(taskId, updates)` calls no backend. When the store holds a task with
the id, it returns the task now stored at the index of the first such task; in it
every field named in `updates` has the value given there and every other field reads
as it did before; the other positions and the length of the list are unchanged. When
no task has the id it fails with 任务不存在 and the store is unchanged. -/
theorem updateTask_frame (env : Env) (taskId : JsVal) (updates : JsObj) (m : TaskModel) :
    ((∃ task ∈ m.tasks, task.id.strictEq taskId = true) → updates.keys.Nodup →
      ∃ (i : Nat) (task : Task),
        m.tasks[i]? = some task ∧ task.id.strictEq taskId = true ∧
        (∀ (j : Nat) (u : Task), j < i → m.tasks[j]? = some u → u.id.strictEq taskId = false) ∧
        (m.updateTask env taskId updates).calls = [] ∧
        (m.updateTask env taskId updates).result = Except.ok (task.merge env updates) ∧
        (m.updateTask env taskId updates).model.tasks[i]? = some (task.merge env updates) ∧
        (∀ k v, (k, v) ∈ updates → (task.merge env updates).get env k = v) ∧
        (∀ k, k ∉ updates.keys → (task.merge env updates).get env k = task.get env k) ∧
        (∀ j, j ≠ i → (m.updateTask env taskId updates).model.tasks[j]? = m.tasks[j]?) ∧
        (m.updateTask env taskId updates).model.tasks.length = m.tasks.length) ∧
    ((∀ task ∈ m.tasks, task.id.strictEq taskId = false) →
      (m.updateTask env taskId updates).result = Except.error { message := "任务不存在" } ∧
      (m.updateTask env taskId updates).model = m ∧
      (m.updateTask env taskId updates).calls = [] ∧
      (m.updateTask env taskId updates).events = []) := by
  refine ⟨?_, ?_⟩
  · intro h hnd
    obtain ⟨i, hi⟩ := findIndex_isSome_of_mem taskId m.tasks h
    obtain ⟨⟨task, hget, hid⟩, hfirst⟩ := findIndex_spec taskId m.tasks i hi
    have hlt : i < m.tasks.length := by
      rcases Nat.lt_or_ge i m.tasks.length with hlt | hge
      · exact hlt
      · rw [List.getElem?_eq_none hge] at hget; cases hget
    have htasks : (m.updateTask env taskId updates).model.tasks =
        m.tasks.set i (task.merge env updates) := by
      simp [TaskModel.updateTask, hi, hget]
    refine ⟨i, task, hget, hid, hfirst, ?_, ?_, ?_, ?_, ?_, ?_, ?_⟩
    · simp [TaskModel.updateTask, hi, hget]
    · simp [TaskModel.updateTask, hi, hget]
    · rw [htasks]; simp [List.getElem?_set, hlt]
    · intro k v hk
      exact Task.merge_get_of_mem env task updates k v hnd hk
    · intro k hk
      exact Task.merge_get_of_not_mem env task updates k hk
    · intro j hj
      rw [htasks]; simp [List.getElem?_set, Ne.symm hj]
    · rw [htasks]; simp
  · intro h
    have hn := findIndex_eq_none taskId m.tasks h
    simp [TaskModel.updateTask, hn]

/-- Witness of `updateTask_frame`: the id 2 is found in the store of two tasks, the id 5
is not. -/
theorem updateTask_frame_witness :
    ((∃ task ∈ twoTasks.tasks, task.id.strictEq (JsVal.num 2) = true) ∧
      sampleUpdates.keys.Nodup ∧
      ∃ (i : Nat) (task : Task),
        twoTasks.tasks[i]? = some task ∧ task.id.strictEq (JsVal.num 2) = true ∧
        (∀ (j : Nat) (u : Task), j < i → twoTasks.tasks[j]? = some u → u.id.strictEq (JsVal.num 2) = false) ∧
        (twoTasks.updateTask sampleEnv (JsVal.num 2) sampleUpdates).calls = [] ∧
        (twoTasks.updateTask sampleEnv (JsVal.num 2) sampleUpdates).result =
          Except.ok (task.merge sampleEnv sampleUpdates) ∧
        (twoTasks.updateTask sampleEnv (JsVal.num 2) sampleUpdates).model.tasks[i]? =
          some (task.merge sampleEnv sampleUpdates) ∧
        (∀ k v, (k, v) ∈ sampleUpdates → (task.merge sampleEnv sampleUpdates).get sampleEnv k = v) ∧
        (∀ k, k ∉ sampleUpdates.keys →
          (task.merge sampleEnv sampleUpdates).get sampleEnv k = task.get sampleEnv k) ∧
        (∀ j, j ≠ i →
          (twoTasks.updateTask sampleEnv (JsVal.num 2) sampleUpdates).model.tasks[j]? =
            twoTasks.tasks[j]?) ∧
        (twoTasks.updateTask sampleEnv (JsVal.num 2) sampleUpdates).model.tasks.length =
          twoTasks.tasks.length) ∧
    ((∀ task ∈ twoTasks.tasks, task.id.strictEq (JsVal.num 5) = false) ∧
      (twoTasks.updateTask sampleEnv (JsVal.num 5) sampleUpdates).result =
        Except.error { message := "任务不存在" } ∧
      (twoTasks.updateTask sampleEnv (JsVal.num 5) sampleUpdates).model = twoTasks) :=
  ⟨⟨⟨formatTask sampleEnv 1 rawPlain, by decide, by decide⟩, by decide,
    (updateTask_frame sampleEnv (JsVal.num 2) sampleUpdates twoTasks).1
      ⟨formatTask sampleEnv 1 rawPlain, by decide, by decide⟩ (by decide)⟩,
   ⟨by decide,
    ((updateTask_frame sampleEnv (JsVal.num 5) sampleUpdates twoTasks).2 (by decide)).1,
    ((updateTask_frame sampleEnv (JsVal.num 5) sampleUpdates twoTasks).2 (by decide)).2.1⟩⟩

theorem findIndex_split (taskId : JsVal) (tasks : List Task) (i : Nat)
    (h : findIndex taskId tasks = some i) :
    ∃ (before : List Task) (task : Task) (after : List Task),
      tasks = before ++ task :: after ∧ before.length = i ∧
      (∀ u ∈ before, u.id.strictEq taskId = false) ∧ task.id.strictEq taskId = true := by
  induction tasks generalizing i with
  | nil => simp [findIndex] at h
  | cons task rest ih =>
    by_cases hc : task.id.strictEq taskId = true
    · have hi : i = 0 := by simpa [findIndex, hc] using h.symm
      subst hi
      exact ⟨[], task, rest, rfl, rfl, fun u hu => absurd hu (List.not_mem_nil u), hc⟩
    · have hf : task.id.strictEq taskId = false := by simpa using hc
      cases hr : findIndex taskId rest with
      | none => simp [findIndex, hf, hr] at h
      | some i0 =>
        have hi : i0 + 1 = i := by simpa [findIndex, hf, hr] using h
        subst hi
        obtain ⟨before, found, after, hsplit, hlen, hno, hid⟩ := ih i0 hr
        refine ⟨task :: before, found, after, by rw [hsplit]; rfl, by simp [hlen], ?_, hid⟩
        intro u hu
        rcases List.mem_cons.1 hu with e | e
        · subst e; exact hf
        · exact hno u e

theorem eraseIdx_length_append (before after : List Task) (task : Task) :
    (before ++ task :: after).eraseIdx before.length = before ++ after := by
  induction before with
  | nil => rfl
  | cons b rest ih => simp [ih]

theorem getElem_length_append (before after : List Task) (task : Task) :
    (before ++ task :: after)[before.length]? = some task := by
  induction before with
  | nil => simp
  | cons b rest ih => simpa using ih

/-- C14: when some task has id `taskId`, `deleteTask(taskId)` removes exactly the first
such task: the tasks before it and after it stay, in their order, the list is one
shorter, and task:deleted (with the removed task) then tasks:updated are dispatched.
When no task has the id, nothing is raised, no event is dispatched and the store is
unchanged. -/
theorem deleteTask_removes_first (taskId : JsVal) (m : TaskModel) :
    ((∃ task ∈ m.tasks, task.id.strictEq taskId = true) →
      ∃ (before : List Task) (task : Task) (after : List Task),
        m.tasks = before ++ task :: after ∧
        (∀ u ∈ before, u.id.strictEq taskId = false) ∧ task.id.strictEq taskId = true ∧
        (m.deleteTask taskId).model.tasks = before ++ after ∧
        (m.deleteTask taskId).model.tasks.length + 1 = m.tasks.length ∧
        (m.deleteTask taskId).succeeded = true ∧
        (m.deleteTask taskId).calls = [] ∧
        (m.deleteTask taskId).events =
          [{ name := "task:deleted", data := Payload.task task, store := before ++ after },
           { name := "tasks:updated", data := Payload.tasks (before ++ after),
             store := before ++ after }]) ∧
    ((∀ task ∈ m.tasks, task.id.strictEq taskId = false) →
      (m.deleteTask taskId).succeeded = true ∧
      (m.deleteTask taskId).events = [] ∧
      (m.deleteTask taskId).model = m) := by
  refine ⟨?_, ?_⟩
  · intro h
    obtain ⟨i, hi⟩ := findIndex_isSome_of_mem taskId m.tasks h
    obtain ⟨before, task, after, hsplit, hlen, hno, hid⟩ := findIndex_split taskId m.tasks i hi
    subst hlen
    have hget : m.tasks[before.length]? = some task := by
      rw [hsplit]; exact getElem_length_append before after task
    have herase : m.tasks.eraseIdx before.length = before ++ after := by
      rw [hsplit]; exact eraseIdx_length_append before after task
    refine ⟨before, task, after, hsplit, hno, hid, ?_, ?_, ?_, ?_, ?_⟩
    · simp [TaskModel.deleteTask, hi, hget, herase]
    · simp only [TaskModel.deleteTask, hi, hget, herase]
      rw [hsplit]; simp; omega
    · simp [TaskModel.deleteTask, hi, hget, Outcome.succeeded]
    · simp [TaskModel.deleteTask, hi, hget]
    · simp [TaskModel.deleteTask, hi, hget, herase]
  · intro h
    have hn := findIndex_eq_none taskId m.tasks h
    simp [TaskModel.deleteTask, hn, Outcome.succeeded]

/-- Witness of `deleteTask_removes_first`: in the store of four tasks the id 2 occurs
twice and the id 5 does not occur. -/
theorem deleteTask_removes_first_witness :
    ((∃ task ∈ fourTasks.tasks, task.id.strictEq (JsVal.num 2) = true) ∧
      ∃ (before : List Task) (task : Task) (after : List Task),
        fourTasks.tasks = before ++ task :: after ∧
        (∀ u ∈ before, u.id.strictEq (JsVal.num 2) = false) ∧
        task.id.strictEq (JsVal.num 2) = true ∧
        (fourTasks.deleteTask (JsVal.num 2)).model.tasks = before ++ after ∧
        (fourTasks.deleteTask (JsVal.num 2)).model.tasks.length + 1 = fourTasks.tasks.length ∧
        (fourTasks.deleteTask (JsVal.num 2)).succeeded = true ∧
        (fourTasks.deleteTask (JsVal.num 2)).calls = [] ∧
        (fourTasks.deleteTask (JsVal.num 2)).events =
          [{ name := "task:deleted", data := Payload.task task, store := before ++ after },
           { name := "tasks:updated", data := Payload.tasks (before ++ after),
             store := before ++ after }]) ∧
    ((∀ task ∈ fourTasks.tasks, task.id.strictEq (JsVal.num 5) = false) ∧
      (fourTasks.deleteTask (JsVal.num 5)).succeeded = true ∧
      (fourTasks.deleteTask (JsVal.num 5)).events = [] ∧
      (fourTasks.deleteTask (JsVal.num 5)).model = fourTasks) :=
  ⟨⟨⟨formatTask sampleEnv 1 rawPlain, by decide, by decide⟩,
    (deleteTask_removes_first (JsVal.num 2) fourTasks).1
      ⟨formatTask sampleEnv 1 rawPlain, by decide, by decide⟩⟩,
   ⟨by decide, (deleteTask_removes_first (JsVal.num 5) fourTasks).2 (by decide)⟩⟩

/-! ## Order of mutation and events -/

/-- C15: in every operation of the task store that changes the list and succeeds
(`loadGroupTasks`, `createTask`, `updateTaskStatus`, `updateTask`, `deleteTask`), each
event is dispatched when `this.tasks` already is the list the operation leaves: a
subscriber that reads `getTasks()` in its handler sees the list after the change. -/
theorem events_see_final_list (env : Env) (response : Except JsError ApiValue)
    (groupId taskId status : JsVal) (taskData updates : JsObj) (m : TaskModel) :
    ((m.loadGroupTasks env response groupId).succeeded = true →
      ∀ ev ∈ (m.loadGroupTasks env response groupId).events,
        ev.store = (m.loadGroupTasks env response groupId).model.getTasks) ∧
    ((m.createTask env response taskData).succeeded = true →
      ∀ ev ∈ (m.createTask env response taskData).events,
        ev.store = (m.createTask env response taskData).model.getTasks) ∧
    ((m.updateTaskStatus response taskId status).succeeded = true →
      ∀ ev ∈ (m.updateTaskStatus response taskId status).events,
        ev.store = (m.updateTaskStatus response taskId status).model.getTasks) ∧
    ((m.updateTask env taskId updates).succeeded = true →
      ∀ ev ∈ (m.updateTask env taskId updates).events,
        ev.store = (m.updateTask env taskId updates).model.getTasks) ∧
    ((m.deleteTask taskId).succeeded = true →
      ∀ ev ∈ (m.deleteTask taskId).events,
        ev.store = (m.deleteTask taskId).model.getTasks) := by
  refine ⟨?_, ?_, ?_, ?_, ?_⟩
  · cases response with
    | error e => intro h; cases h
    | ok v =>
      intro _ ev hev
      simp only [TaskModel.loadGroupTasks, List.mem_singleton] at hev
      subst hev
      rfl
  · cases response with
    | error e => intro h; cases h
    | ok v =>
      intro _ ev hev
      simp only [TaskModel.createTask, List.mem_cons, List.mem_singleton, List.not_mem_nil,
        or_false] at hev
      rcases hev with hev | hev <;> (subst hev; rfl)
  · cases response with
    | error e => intro h; cases h
    | ok v =>
      cases hf : findIndex taskId m.tasks with
      | none =>
        intro h
        simp [TaskModel.updateTaskStatus, hf, Outcome.succeeded] at h
      | some i =>
        cases hg : m.tasks[i]? with
        | none =>
          intro h
          simp [TaskModel.updateTaskStatus, hf, hg, Outcome.succeeded] at h
        | some task =>
          intro _ ev hev
          simp only [TaskModel.updateTaskStatus, hf, hg, List.mem_cons, List.mem_singleton,
            List.not_mem_nil, or_false] at hev
          rcases hev with hev | hev <;>
            (subst hev; simp [TaskModel.updateTaskStatus, hf, hg, TaskModel.getTasks])
  · cases hf : findIndex taskId m.tasks with
    | none =>
      intro h
      simp [TaskModel.updateTask, hf, Outcome.succeeded] at h
    | some i =>
      cases hg : m.tasks[i]? with
      | none =>
        intro h
        simp [TaskModel.updateTask, hf, hg, Outcome.succeeded] at h
      | some task =>
        intro _ ev hev
        simp only [TaskModel.updateTask, hf, hg, List.mem_cons, List.mem_singleton,
          List.not_mem_nil, or_false] at hev
        rcases hev with hev | hev <;>
          (subst hev; simp [TaskModel.updateTask, hf, hg, TaskModel.getTasks])
  · cases hf : findIndex taskId m.tasks with
    | none =>
      intro _ ev hev
      simp [TaskModel.deleteTask, hf] at hev
    | some i =>
      cases hg : m.tasks[i]? with
      | none =>
        intro _ ev hev
        simp [TaskModel.deleteTask, hf, hg] at hev
      | some task =>
        intro _ ev hev
        simp only [TaskModel.deleteTask, hf, hg, List.mem_cons, List.mem_singleton,
          List.not_mem_nil, or_false] at hev
        rcases hev with hev | hev <;>
          (subst hev; simp [TaskModel.deleteTask, hf, hg, TaskModel.getTasks])

/-- Witness of `events_see_final_list`: the five operations succeed on the store of two
tasks. -/
theorem events_see_final_list_witness :
    ((twoTasks.loadGroupTasks sampleEnv (Except.ok (ApiValue.array [rawDoneLate]))
        (JsVal.num 3)).succeeded = true ∧
      ∀ ev ∈ (twoTasks.loadGroupTasks sampleEnv (Except.ok (ApiValue.array [rawDoneLate]))
          (JsVal.num 3)).events,
        ev.store = (twoTasks.loadGroupTasks sampleEnv (Except.ok (ApiValue.array [rawDoneLate]))
          (JsVal.num 3)).model.getTasks) ∧
    ((twoTasks.createTask sampleEnv (Except.ok responseIdOnly) inputReport).succeeded = true ∧
      ∀ ev ∈ (twoTasks.createTask sampleEnv (Except.ok responseIdOnly) inputReport).events,
        ev.store =
          (twoTasks.createTask sampleEnv (Except.ok responseIdOnly) inputReport).model.getTasks) ∧
    ((twoTasks.updateTaskStatus (Except.ok responseIdOnly) (JsVal.num 2)
        (JsVal.str "已完成")).succeeded = true ∧
      ∀ ev ∈ (twoTasks.updateTaskStatus (Except.ok responseIdOnly) (JsVal.num 2)
          (JsVal.str "已完成")).events,
        ev.store = (twoTasks.updateTaskStatus (Except.ok responseIdOnly) (JsVal.num 2)
          (JsVal.str "已完成")).model.getTasks) ∧
    ((twoTasks.updateTask sampleEnv (JsVal.num 2) sampleUpdates).succeeded = true ∧
      ∀ ev ∈ (twoTasks.updateTask sampleEnv (JsVal.num 2) sampleUpdates).events,
        ev.store = (twoTasks.updateTask sampleEnv (JsVal.num 2) sampleUpdates).model.getTasks) ∧
    ((twoTasks.deleteTask (JsVal.num 2)).succeeded = true ∧
      ∀ ev ∈ (twoTasks.deleteTask (JsVal.num 2)).events,
        ev.store = (twoTasks.deleteTask (JsVal.num 2)).model.getTasks) :=
  ⟨⟨rfl, (events_see_final_list sampleEnv (Except.ok (ApiValue.array [rawDoneLate]))
      (JsVal.num 3) (JsVal.num 2) (JsVal.str "已完成") inputReport sampleUpdates twoTasks).1 rfl⟩,
   ⟨rfl, (events_see_final_list sampleEnv (Except.ok responseIdOnly)
      (JsVal.num 3) (JsVal.num 2) (JsVal.str "已完成") inputReport sampleUpdates twoTasks).2.1 rfl⟩,
   ⟨by decide, (events_see_final_list sampleEnv (Except.ok responseIdOnly)
      (JsVal.num 3) (JsVal.num 2) (JsVal.str "已完成") inputReport sampleUpdates
      twoTasks).2.2.1 (by decide)⟩,
   ⟨by decide, (events_see_final_list sampleEnv (Except.ok responseIdOnly)
      (JsVal.num 3) (JsVal.num 2) (JsVal.str "已完成") inputReport sampleUpdates
      twoTasks).2.2.2.1 (by decide)⟩,
   ⟨by decide, (events_see_final_list sampleEnv (Except.ok responseIdOnly)
      (JsVal.num 3) (JsVal.num 2) (JsVal.str "已完成") inputReport sampleUpdates
      twoTasks).2.2.2.2 (by decide)⟩⟩

/-! ## Dispatching to listeners -/

theorem Listeners.lookup_store_same (ls : Listeners) (event : String) (hs : List Handler) :
    (ls.store event hs).lookup event = some hs := by
  induction ls with
  | nil => simp [Listeners.store, List.lookup]
  | cons entry rest ih =>
    obtain ⟨e0, h0⟩ := entry
    by_cases h : e0 = event
    · simp [Listeners.store, h, List.lookup]
    · have hb : (event == e0) = false := by
        rw [beq_eq_false_iff_ne]; exact fun e => h e.symm
      simp only [Listeners.store, h, if_false, List.lookup, hb]
      exact ih

theorem Listeners.read_store_same (ls : Listeners) (event : String) (hs : List Handler) :
    (ls.store event hs).read event = ListenerSlot.list hs := by
  simp [Listeners.read, Listeners.lookup_store_same]

theorem Listeners.onAll_of_list (event : String) (hs : List Handler) (ls : Listeners)
    (prev : List Handler) (h : ls.read event = ListenerSlot.list prev) :
    ∃ after, ls.onAll event hs = Except.ok after ∧
      after.read event = ListenerSlot.list (prev ++ hs) := by
  induction hs generalizing ls prev with
  | nil => exact ⟨ls, rfl, by simpa using h⟩
  | cons cb rest ih =>
    have hon : ls.on event cb = Except.ok (ls.store event (prev ++ [cb])) := by
      simp [Listeners.on, h]
    obtain ⟨after, h1, h2⟩ := ih (ls.store event (prev ++ [cb])) (prev ++ [cb])
      (Listeners.read_store_same ls event _)
    refine ⟨after, ?_, by simpa using h2⟩
    simp only [Listeners.onAll, hon]
    exact h1

theorem callEach_calls {δ : Type} (data : δ) (hs : List Handler) :
    (callEach data hs).calls = hs.map (fun h => (h.ident, data)) ∧
    (callEach data hs).logged = (hs.filter (fun h => h.raises)).map (fun h => h.ident) := by
  induction hs with
  | nil => exact ⟨rfl, rfl⟩
  | cons h rest ih =>
    refine ⟨by simp [callEach, ih.1], ?_⟩
    cases hr : h.raises <;> simp [callEach, hr, ih.2, List.filter_cons]

/-- For an event name that `Object.prototype` does not have, dispatching is as intended:
after the callbacks `h1 .. hn` have been registered with `on`, behind the callbacks
`prev` registered before, `dispatchEvent` returns normally, having called every
callback exactly once, in the order of subscription, with the event data, and
having logged the exceptions of those that throw. -/
theorem dispatchEvent_calls_each_once {δ : Type} (ls : Listeners) (event : String)
    (hs : List Handler) (data : δ) (hkey : event ∉ objectPrototypeKeys) :
    ∃ after d,
      ls.onAll event hs = Except.ok after ∧
      after.dispatchEvent event data = Except.ok d ∧
      d.calls = ((ls.lookup event).getD [] ++ hs).map (fun h => (h.ident, data)) ∧
      d.logged = (((ls.lookup event).getD [] ++ hs).filter (fun h => h.raises)).map
        (fun h => h.ident) := by
  cases hl : ls.lookup event with
  | some prev =>
    have hread : ls.read event = ListenerSlot.list prev := by simp [Listeners.read, hl]
    obtain ⟨after, h1, h2⟩ := Listeners.onAll_of_list event hs ls prev hread
    refine ⟨after, callEach data (prev ++ hs), h1, by simp [Listeners.dispatchEvent, h2], ?_, ?_⟩
    · simpa using (callEach_calls data (prev ++ hs)).1
    · simpa using (callEach_calls data (prev ++ hs)).2
  | none =>
    have hread : ls.read event = ListenerSlot.absent := by simp [Listeners.read, hl, hkey]
    cases hs with
    | nil =>
      refine ⟨ls, { calls := [], logged := [] }, rfl, by simp [Listeners.dispatchEvent, hread],
        by simp, by simp⟩
    | cons cb rest =>
      have hon : ls.on event cb = Except.ok (ls.store event [cb]) := by
        simp [Listeners.on, hread]
      obtain ⟨after, h1, h2⟩ := Listeners.onAll_of_list event rest (ls.store event [cb]) [cb]
        (Listeners.read_store_same ls event _)
      refine ⟨after, callEach data (cb :: rest), ?_, ?_, ?_, ?_⟩
      · simp only [Listeners.onAll, hon]; exact h1
      · have : [cb] ++ rest = cb :: rest := rfl
        rw [this] at h2
        simp [Listeners.dispatchEvent, h2]
      · simpa using (callEach_calls data (cb :: rest)).1
      · simpa using (callEach_calls data (cb :: rest)).2

/-- C16 (the code at the failing input): `this.listeners` is the object literal `{}`, so
for the event name constructor the read `this.listeners[event]` is the inherited
member of `Object.prototype`: `on` throws a TypeError instead of registering the
callback, and `dispatchEvent` throws a TypeError instead of returning normally. For
the event name tasks:updated both callbacks are called once, in order, and the
exception of the second is caught. -/
theorem dispatchEvent_inherited_key :
    Listeners.on [] "constructor" quietHandler = Except.error { message := "TypeError" } ∧
    Listeners.dispatchEvent [] "constructor" (Payload.tasks []) =
      Except.error { message := "TypeError" } ∧
    Listeners.onAll [] "tasks:updated" [quietHandler, raisingHandler] =
      Except.ok [("tasks:updated", [quietHandler, raisingHandler])] ∧
    (Listeners.dispatchEvent [("tasks:updated", [quietHandler, raisingHandler])]
        "tasks:updated" (Payload.tasks [])).map (fun d => (d.calls, d.logged)) =
      Except.ok ([(1, Payload.tasks []), (2, Payload.tasks [])], [2]) := by
  refine ⟨rfl, rfl, rfl, rfl⟩

/-! ## The session store and the storage -/

theorem Storage.getItem_setItem_same (s : Storage) (key value : String) :
    (s.setItem key value).getItem key = some value := by
  induction s with
  | nil => simp [Storage.setItem, Storage.getItem, List.lookup]
  | cons entry rest ih =>
    obtain ⟨k0, v0⟩ := entry
    by_cases h : k0 = key
    · simp [Storage.setItem, Storage.getItem, h, List.lookup]
    · have hb : (key == k0) = false := by
        rw [beq_eq_false_iff_ne]; exact fun e => h e.symm
      simp only [Storage.setItem, h, if_false, Storage.getItem, List.lookup, hb]
      exact ih

theorem Storage.getItem_removeItem_same (s : Storage) (key : String) :
    (s.removeItem key).getItem key = none := by
  induction s with
  | nil => rfl
  | cons entry rest ih =>
    obtain ⟨k0, v0⟩ := entry
    by_cases h : k0 = key
    · subst h
      simpa [Storage.removeItem, Storage.getItem, List.filter_cons] using ih
    · have hb : (key == k0) = false := by
        rw [beq_eq_false_iff_ne]; exact fun e => h e.symm
      have hf : (k0 != key) = true := by simpa [bne_iff_ne] using h
      simp only [Storage.removeItem, Storage.getItem, List.filter_cons, hf, if_true,
        List.lookup, hb]
      exact ih

theorem Storage.getItem_removeItem_other (s : Storage) (key other : String)
    (hne : other ≠ key) : (s.removeItem key).getItem other = s.getItem other := by
  induction s with
  | nil => rfl
  | cons entry rest ih =>
    obtain ⟨k0, v0⟩ := entry
    by_cases h : k0 = key
    · subst h
      have hb : (other == k0) = false := by rw [beq_eq_false_iff_ne]; exact hne
      have hf : (k0 != k0) = false := by simp
      simp only [Storage.removeItem, Storage.getItem, List.filter_cons, hf, List.lookup, hb]
      exact ih
    · have hf : (k0 != key) = true := by simpa [bne_iff_ne] using h
      simp only [Storage.removeItem, Storage.getItem, List.filter_cons, hf, if_true,
        List.lookup]
      cases hb : (other == k0) with
      | true => rfl
      | false => exact ih

theorem UserModel.new_of_getItem_none (p : Platform) (storage : Storage)
    (h : storage.getItem "user_data" = none) :
    UserModel.new p storage = { currentUser := Json.null } := by
  simp [UserModel.new, UserModel.initialize, h]

theorem parseInt_null : parseInt "null" = none := by decide

/-- C17: for a session payload `u` that is an object and that the platform serialises
to a non-empty text which parses back to `u`, `login(u)` followed by the construction
of a new `UserModel` over the storage it left makes `getCurrentUser()` return `u`. -/
theorem login_then_restart (p : Platform) (storage : Storage) (m : UserModel)
    (members : List (String × Json))
    (hne : p.stringify (Json.obj members) ≠ "")
    (hrt : p.parse (p.stringify (Json.obj members)) = some (Json.obj members)) :
    (m.login p (Json.obj members) storage).thrown = none ∧
    (m.login p (Json.obj members) storage).model.getCurrentUser = Json.obj members ∧
    (m.login p (Json.obj members) storage).storage.getItem "user_data" =
      some (p.stringify (Json.obj members)) ∧
    (UserModel.new p (m.login p (Json.obj members) storage).storage).getCurrentUser =
      Json.obj members := by
  have hget : (m.login p (Json.obj members) storage).storage.getItem "user_data" =
      some (p.stringify (Json.obj members)) := by
    simp only [UserModel.login]
    exact Storage.getItem_setItem_same _ _ _
  refine ⟨rfl, rfl, hget, ?_⟩
  have hb : (p.stringify (Json.obj members) != "") = true := by simpa [bne_iff_ne] using hne
  simp only [UserModel.new, UserModel.initialize, hget, hb, if_true, hrt,
    UserModel.getCurrentUser]

/-- Witness of `login_then_restart`: the sample session on the sample platform. -/
theorem login_then_restart_witness :
    samplePlatform.stringify sampleSession ≠ "" ∧
    samplePlatform.parse (samplePlatform.stringify sampleSession) = some sampleSession ∧
    (UserModel.new samplePlatform
        ((UserModel.new samplePlatform []).login samplePlatform sampleSession []).storage
      ).getCurrentUser = sampleSession :=
  ⟨by decide, rfl,
   (login_then_restart samplePlatform [] (UserModel.new samplePlatform [])
      [("user_id", Json.num 1), ("user_name", Json.str "Alice"),
       ("contact", Json.str "13800138000")] (by decide) rfl).2.2.2⟩

/-- C18: after `logout()` the in-memory session is null and none of the keys user_id,
user_name, user_contact, user_data is left in the storage; `getCurrentUser()` and
`getUserId()` are null and `isLoggedIn()` is false, at once and for a model built
anew over the storage that is left. -/
theorem logout_clears_session (p : Platform) (storage : Storage) (m : UserModel) :
    (m.logout storage).thrown = none ∧
    (m.logout storage).model.currentUser = Json.null ∧
    (∀ key ∈ ["user_id", "user_name", "user_contact", "user_data"],
      (m.logout storage).storage.getItem key = none) ∧
    (m.logout storage).model.getCurrentUser = Json.null ∧
    (m.logout storage).model.getUserId (m.logout storage).storage = Json.null ∧
    (m.logout storage).model.isLoggedIn (m.logout storage).storage = false ∧
    (UserModel.new p (m.logout storage).storage).getCurrentUser = Json.null ∧
    (UserModel.new p (m.logout storage).storage).getUserId (m.logout storage).storage =
      Json.null ∧
    (UserModel.new p (m.logout storage).storage).isLoggedIn (m.logout storage).storage =
      false := by
  have hkeys : ∀ key ∈ ["user_id", "user_name", "user_contact", "user_data"],
      (m.logout storage).storage.getItem key = none := by
    intro key hkey
    simp only [List.mem_cons, List.mem_singleton, List.not_mem_nil, or_false] at hkey
    simp only [UserModel.logout]
    rcases hkey with h | h | h | h <;> subst h
    · rw [Storage.getItem_removeItem_other _ _ _ (by decide),
        Storage.getItem_removeItem_other _ _ _ (by decide),
        Storage.getItem_removeItem_other _ _ _ (by decide)]
      exact Storage.getItem_removeItem_same _ _
    · rw [Storage.getItem_removeItem_other _ _ _ (by decide),
        Storage.getItem_removeItem_other _ _ _ (by decide)]
      exact Storage.getItem_removeItem_same _ _
    · rw [Storage.getItem_removeItem_other _ _ _ (by decide)]
      exact Storage.getItem_removeItem_same _ _
    · exact Storage.getItem_removeItem_same _ _
  have hid : (m.logout storage).storage.getItem "user_id" = none := hkeys _ (by simp)
  have hdata : (m.logout storage).storage.getItem "user_data" = none := hkeys _ (by simp)
  have hnew := UserModel.new_of_getItem_none p _ hdata
  have hnull : ∀ st : Storage, st.getItem "user_id" = none →
      UserModel.getUserId st { currentUser := Json.null } = Json.null := by
    intro st hst
    simp [UserModel.getUserId, Json.member, Json.orElse, hst, parseInt_null]
  have hm : (m.logout storage).model = { currentUser := Json.null } := rfl
  refine ⟨rfl, rfl, hkeys, rfl, ?_, ?_, ?_, ?_, ?_⟩
  · rw [hm]; exact hnull _ hid
  · simp only [UserModel.isLoggedIn]
    rw [hm, hnull _ hid]; rfl
  · rw [hnew]; rfl
  · rw [hnew]; exact hnull _ hid
  · simp only [UserModel.isLoggedIn]
    rw [hnew, hnull _ hid]; rfl

/-- C19 (counterexample): a model built over an empty storage has no session; after the
login page has written a valid session blob to the storage, `getCurrentUser()` of that
model still returns null, while a model built anew returns the session. -/
theorem getCurrentUser_not_rehydrated :
    (UserModel.new samplePlatform []).currentUser = Json.null ∧
    (loginPageStore samplePlatform sampleSession "1" "13800138000" []).getItem "user_data" =
      some sampleBlob ∧
    samplePlatform.parse sampleBlob = some sampleSession ∧
    (UserModel.new samplePlatform []).getCurrentUser = Json.null ∧
    (UserModel.new samplePlatform
      (loginPageStore samplePlatform sampleSession "1" "13800138000" [])).getCurrentUser =
        sampleSession := by
  refine ⟨rfl, by decide, rfl, rfl, rfl⟩

/-- C19 (amended): `getCurrentUser()` returns the in-memory session and does not read
the storage. The in-memory session is, after construction, the value parsed from the
text under user_data when that text is not empty and parses, and null otherwise;
after `login(u)` it is `u`; after `logout()` it is null. -/
theorem getCurrentUser_in_memory (p : Platform) (storage : Storage) (m : UserModel)
    (u : Json) :
    m.getCurrentUser = m.currentUser ∧
    (UserModel.new p storage).getCurrentUser =
      (match storage.getItem "user_data" with
       | none => Json.null
       | some text => if text = "" then Json.null else (p.parse text).getD Json.null) ∧
    (m.login p u storage).model.getCurrentUser = u ∧
    (m.logout storage).model.getCurrentUser = Json.null := by
  refine ⟨rfl, ?_, ?_, rfl⟩
  · simp only [UserModel.new, UserModel.initialize, UserModel.getCurrentUser]
    cases hg : storage.getItem "user_data" with
    | none => rfl
    | some text =>
      by_cases ht : text = ""
      · simp [ht]
      · have hb : (text != "") = true := by simpa [bne_iff_ne] using ht
        simp only [hb, if_true, ht, if_false]
        cases p.parse text <;> rfl
  · cases u <;> rfl

/-- C20: a persisted text that fails to parse is treated as an absent key. A
`UserModel` built over a storage that holds such a text under user_data is the model
built over a storage without that key, and its session is null. `getCurrentGroup()`
over a storage that holds such a text under current_group leaves the store as it is
and returns what it returns over a storage without that key: null when no group is
selected in memory. Neither raises: the parse error is caught in both. -/
theorem corrupt_text_as_absent (p : Platform) (text : String) (storage storage0 : Storage)
    (g : GroupModel) (hfail : p.parse text = none) :
    (storage.getItem "user_data" = some text → storage0.getItem "user_data" = none →
      UserModel.new p storage = UserModel.new p storage0 ∧
      (UserModel.new p storage).getCurrentUser = Json.null) ∧
    (storage.getItem "current_group" = some text →
      storage0.getItem "current_group" = none →
      g.getCurrentGroup p storage = g.getCurrentGroup p storage0 ∧
      (g.currentGroup = Json.null →
        g.getCurrentGroup p storage = (g, Json.null))) := by
  refine ⟨?_, ?_⟩
  · intro h h0
    have e : UserModel.new p storage = { currentUser := Json.null } := by
      simp only [UserModel.new, UserModel.initialize, h, hfail]
      split <;> rfl
    rw [e, UserModel.new_of_getItem_none p storage0 h0]
    exact ⟨rfl, rfl⟩
  · intro h h0
    have e : g.getCurrentGroup p storage = (g, g.currentGroup) := by
      simp only [GroupModel.getCurrentGroup, h, hfail]
      split
      · split <;> rfl
      · rfl
    have e0 : g.getCurrentGroup p storage0 = (g, g.currentGroup) := by
      simp only [GroupModel.getCurrentGroup, h0]
      split <;> rfl
    refine ⟨by rw [e, e0], ?_⟩
    intro hnull
    rw [e, hnull]

/-- Witness of `corrupt_text_as_absent`: the text `not json` on the sample platform. -/
theorem corrupt_text_as_absent_witness :
    samplePlatform.parse "not json" = none ∧
    corruptStorage.getItem "user_data" = some "not json" ∧
    corruptStorage.getItem "current_group" = some "not json" ∧
    (UserModel.new samplePlatform corruptStorage).getCurrentUser = Json.null ∧
    GroupModel.new.getCurrentGroup samplePlatform corruptStorage =
      (GroupModel.new, Json.null) :=
  ⟨rfl, by decide, by decide,
   ((corrupt_text_as_absent samplePlatform "not json" corruptStorage [] GroupModel.new
      rfl).1 (by decide) (by decide)).2,
   ((corrupt_text_as_absent samplePlatform "not json" corruptStorage [] GroupModel.new
      rfl).2 (by decide) (by decide)).2 rfl⟩

/-! ## Selecting an unknown group -/

theorem Json.truthy_null_of_falsy_object (v : Json) (htype : v.isNumberOrObject = true)
    (hnum : v.isNumber = false) (hfalsy : v.truthy = false) : v = Json.null := by
  cases v <;> simp_all [Json.isNumberOrObject, Json.isNumber, Json.truthy]

theorem findGroup_found_truthy (groupId : Json) (groups : List Json) (group : Json)
    (h : findGroup groupId groups = Except.ok (some group)) : group.truthy = true := by
  induction groups with
  | nil => simp [findGroup] at h
  | cons first rest ih =>
    cases first with
    | obj members =>
      simp only [findGroup, Json.member] at h
      cases hm : members.lookup "id" with
      | none => rw [hm] at h; exact ih h
      | some id =>
        rw [hm] at h
        by_cases hid : id.strictEq groupId = true
        · simp only [hid, if_true, Except.ok.injEq, Option.some.injEq] at h
          subst h
          rfl
        · simp only [hid] at h
          exact ih h
    | null => simp [findGroup] at h
    | bool b => simp only [findGroup, Json.member] at h; exact ih h
    | num n => simp only [findGroup, Json.member] at h; exact ih h
    | frac k => simp only [findGroup, Json.member] at h; exact ih h
    | str s => simp only [findGroup, Json.member] at h; exact ih h
    | arr items => simp only [findGroup, Json.member] at h; exact ih h

theorem findGroup_absent (groupId : Json) (groups : List Json)
    (habsent : ∀ group ∈ groups, ∀ id, group.member "id" = some id →
      id.strictEq groupId = false) :
    findGroup groupId groups = Except.ok none ∨
      ∃ e, findGroup groupId groups = Except.error e := by
  induction groups with
  | nil => exact Or.inl rfl
  | cons first rest ih =>
    have hrest := ih (fun group hg => habsent group (List.mem_cons_of_mem _ hg))
    have hfirst := habsent first (List.mem_cons_self _ _)
    cases first with
    | obj members =>
      simp only [findGroup]
      cases hm : (Json.obj members).member "id" with
      | none => simpa using hrest
      | some id =>
        have := hfirst id hm
        simpa [this] using hrest
    | null => exact Or.inr ⟨_, rfl⟩
    | bool b => simpa [findGroup, Json.member] using hrest
    | num n => simpa [findGroup, Json.member] using hrest
    | frac k => simpa [findGroup, Json.member] using hrest
    | str s => simpa [findGroup, Json.member] using hrest
    | arr items => simpa [findGroup, Json.member] using hrest

theorem GroupModel.getCurrentGroup_fst_currentGroup (p : Platform) (storage : Storage)
    (g : GroupModel) :
    (g.getCurrentGroup p storage).1.currentGroup = (g.getCurrentGroup p storage).2 ∧
    (g.getCurrentGroup p storage).1.groups = g.groups := by
  simp only [GroupModel.getCurrentGroup]
  split
  · split
    · exact ⟨rfl, rfl⟩
    · split
      · split <;> exact ⟨rfl, rfl⟩
      · exact ⟨rfl, rfl⟩
  · exact ⟨rfl, rfl⟩

theorem GroupStore.coherent_of_reachable (p : Platform) (g : GroupModel) (storage : Storage)
    (h : GroupStore.Reachable p g storage) : GroupStore.Coherent p g storage := by
  induction h with
  | start storage => exact Or.inl rfl
  | groups g storage list _ ih => exact ih
  | select g storage group _ typed serial ih =>
    simp only [GroupModel.setCurrentGroup] at serial ⊢
    cases hsel : (if group.isNumber then g.getGroupById group else Except.ok group) with
    | error e =>
      simp only [hsel]
      exact ih
    | ok current =>
      simp only [hsel] at serial ⊢
      cases ht : current.truthy with
      | true =>
        simp only [ht, if_true] at serial ⊢
        obtain ⟨hne, hrt⟩ := serial trivial
        exact Or.inr ⟨p.stringify current, Storage.getItem_setItem_same _ _ _, hne, hrt⟩
      | false =>
        simp only [ht] at serial ⊢
        refine Or.inl ?_
        show current = Json.null
        cases hn : group.isNumber with
        | true =>
          simp only [hn, if_true, GroupModel.getGroupById] at hsel
          cases hf : findGroup group g.groups with
          | error e => simp [hf] at hsel
          | ok found =>
            cases found with
            | none =>
              simp only [hf, Except.ok.injEq] at hsel
              exact hsel.symm
            | some found =>
              have hft := findGroup_found_truthy group g.groups found hf
              simp only [hf, hft, if_true, Except.ok.injEq] at hsel
              rw [← hsel] at ht
              rw [hft] at ht
              cases ht
        | false =>
          simp only [hn, Bool.false_eq_true, if_false, Except.ok.injEq] at hsel
          subst hsel
          exact Json.truthy_null_of_falsy_object group typed hn ht
  | current g storage _ ih =>
    unfold GroupStore.Coherent at ih ⊢
    simp only [GroupModel.getCurrentGroup]
    cases ht : g.currentGroup.truthy with
    | true => simpa [ht] using ih
    | false =>
      simp only [ht, Bool.not_false, if_true]
      cases hs : storage.getItem "current_group" with
      | none => simpa [hs] using ih
      | some text =>
        by_cases hne : text = ""
        · subst hne
          simpa [hs] using ih
        · have hb : (text != "") = true := by simpa [bne_iff_ne] using hne
          simp only [hb, if_true]
          cases hp : p.parse text with
          | none => simpa [hs] using ih
          | some group => exact Or.inr ⟨text, rfl, hne, hp⟩
  | clear g storage _ _ => exact Or.inl rfl

theorem GroupModel.getCurrentGroup_of_null (p : Platform) (storage : Storage)
    (g : GroupModel) (hnull : g.currentGroup = Json.null) :
    (g.getCurrentGroup p storage).2 =
      (match storage.getItem "current_group" with
       | none => Json.null
       | some text => if text = "" then Json.null else (p.parse text).getD Json.null) := by
  simp only [GroupModel.getCurrentGroup, hnull, Json.truthy, Bool.not_false, if_true]
  cases hs : storage.getItem "current_group" with
  | none => rfl
  | some text =>
    by_cases hne : text = ""
    · simp [hne]
    · have hb : (text != "") = true := by simpa [bne_iff_ne] using hne
      simp only [hb, if_true, hne, if_false]
      cases p.parse text <;> rfl

theorem GroupModel.getCurrentGroup_of_coherent (p : Platform) (storage : Storage)
    (g : GroupModel) (h : GroupStore.Coherent p g storage) :
    (g.getCurrentGroup p storage).2 =
      (match storage.getItem "current_group" with
       | none => Json.null
       | some text => if text = "" then Json.null else (p.parse text).getD Json.null) := by
  rcases h with hnull | ⟨text, hs, hne, hp⟩
  · exact GroupModel.getCurrentGroup_of_null p storage g hnull
  · have hb : (text != "") = true := by simpa [bne_iff_ne] using hne
    simp only [GroupModel.getCurrentGroup, hs, hne, if_false, hp, Option.getD_some, hb, if_true]
    split <;> rfl

/-- C21: in every state that the operations of the group store reach, and for every
number that no group of the local list has as its id, `setCurrentGroup(id)` leaves
the storage, hence the persisted selection, as it is and dispatches no event, and
`getCurrentGroup()` returns afterwards what it returns before the call. -/
theorem setCurrentGroup_unknown_id (p : Platform) (g : GroupModel) (storage : Storage)
    (n : Int) (hreach : GroupStore.Reachable p g storage)
    (habsent : ∀ group ∈ g.groups, ∀ id, group.member "id" = some id →
      id.strictEq (Json.num n) = false) :
    (g.setCurrentGroup p (Json.num n) storage).storage = storage ∧
    (g.setCurrentGroup p (Json.num n) storage).events = [] ∧
    ((g.setCurrentGroup p (Json.num n) storage).model.getCurrentGroup p
        (g.setCurrentGroup p (Json.num n) storage).storage).2 =
      (g.getCurrentGroup p storage).2 := by
  have hcoh := GroupStore.coherent_of_reachable p g storage hreach
  have hbefore := GroupModel.getCurrentGroup_of_coherent p storage g hcoh
  rcases findGroup_absent (Json.num n) g.groups habsent with hf | ⟨e, hf⟩
  · have hout : g.setCurrentGroup p (Json.num n) storage =
        { model := { g with currentGroup := Json.null }, storage := storage, events := [],
          thrown := none } := by
      simp [GroupModel.setCurrentGroup, Json.isNumber, GroupModel.getGroupById, hf, Json.truthy]
    rw [hout]
    refine ⟨rfl, rfl, ?_⟩
    rw [hbefore]
    exact GroupModel.getCurrentGroup_of_null p storage _ rfl
  · have hout : g.setCurrentGroup p (Json.num n) storage =
        { model := g, storage := storage, events := [], thrown := some e } := by
      simp [GroupModel.setCurrentGroup, Json.isNumber, GroupModel.getGroupById, hf]
    rw [hout]
    exact ⟨rfl, rfl, rfl⟩

theorem selectedStore_reachable : GroupStore.Reachable groupPlatform selectedStore
    selectedStorage :=
  GroupStore.Reachable.select { groups := [sampleGroup], currentGroup := Json.null } []
    (Json.num 7)
    (GroupStore.Reachable.groups GroupModel.new [] [sampleGroup]
      (GroupStore.Reachable.start []))
    rfl (fun _ => ⟨by decide, rfl⟩)

/-- Witness of `setCurrentGroup_unknown_id`: the sample group is selected, then the id
999 is. -/
theorem setCurrentGroup_unknown_id_witness :
    GroupStore.Reachable groupPlatform selectedStore selectedStorage ∧
    (∀ group ∈ selectedStore.groups, ∀ id, group.member "id" = some id →
      id.strictEq (Json.num 999) = false) ∧
    (selectedStore.setCurrentGroup groupPlatform (Json.num 999) selectedStorage).storage =
      selectedStorage ∧
    (selectedStore.setCurrentGroup groupPlatform (Json.num 999) selectedStorage).events = [] ∧
    ((selectedStore.setCurrentGroup groupPlatform (Json.num 999)
        selectedStorage).model.getCurrentGroup groupPlatform
        (selectedStore.setCurrentGroup groupPlatform (Json.num 999) selectedStorage).storage).2 =
      (selectedStore.getCurrentGroup groupPlatform selectedStorage).2 :=
  have habsent : ∀ group ∈ selectedStore.groups, ∀ id, group.member "id" = some id →
      id.strictEq (Json.num 999) = false := by
    intro group hg id hid
    simp only [selectedStore, List.mem_singleton] at hg
    subst hg
    simp only [sampleGroup, Json.member, List.lookup] at hid
    cases hid
    rfl
  ⟨selectedStore_reachable, habsent,
   setCurrentGroup_unknown_id groupPlatform selectedStore selectedStorage 999
     selectedStore_reachable habsent⟩

/-! ## The envelope of a response -/

/-- C22 (counterexample): for the envelope with code 200 and data 0, `apiRequest`
returns an empty object and not the data; for the envelope with code 500 and an empty
msg, the message of the error is 请求失败，错误码: 500 and not msg. -/
theorem apiRequest_falsy_data :
    apiRequestResult samplePlatform envelopeZero = Except.ok (Json.obj []) ∧
    envelopeZero.member "data" = some (Json.num 0) ∧
    Json.obj [] ≠ Json.num 0 ∧
    apiRequestResult samplePlatform envelopeNoMsg =
      Except.error { message := "请求失败，错误码: 500" } ∧
    envelopeNoMsg.member "msg" = some (Json.str "") := by
  refine ⟨rfl, rfl, ?_, rfl, rfl⟩
  intro h; cases h

theorem Json.strictEq_num_iff (v : Json) (n : Int) :
    v.strictEq (Json.num n) = true ↔ v = Json.num n := by
  cases v <;> simp [Json.strictEq]

/-- The falsy JSON values are null, false, 0 and the empty string. -/
theorem Json.truthy_eq_false_iff (v : Json) :
    v.truthy = false ↔
      (v = Json.null ∨ v = Json.bool false ∨ v = Json.num 0 ∨ v = Json.str "") := by
  cases v <;> simp [Json.truthy]

/-- What `apiRequest` does with a response that has a member `code`. -/
theorem apiRequestResult_of_code (p : Platform) (result code : Json)
    (hcode : result.member "code" = some code) :
    apiRequestResult p result =
      if code.strictEq (Json.num 200) then
        Except.ok (Json.orElse (result.member "data") (Json.obj []))
      else
        Except.error
          { message :=
              (Json.orElse (result.member "msg")
                (Json.str ("请求失败，错误码: " ++ code.toText p))).toText p } := by
  cases result with
  | obj members => simp only [apiRequestResult, hcode]
  | null => simp [Json.member] at hcode
  | bool b => simp [Json.member] at hcode
  | num n => simp [Json.member] at hcode
  | frac k => simp [Json.member] at hcode
  | str s => simp [Json.member] at hcode
  | arr items => simp [Json.member] at hcode

/-- C22 (amended): for every response that has a member code, whatever its other members
are. When code is the number 200, `apiRequest` returns the member data when it is
truthy, and an empty object when data is falsy (null, false, 0, the empty string) or
missing. When code is anything else (another number, a text such as 200 in quotes,
null), it fails with an error whose message is the text of msg when msg is truthy (msg
itself when it is a non-empty string), and 请求失败，错误码: followed by the text of the
code when msg is falsy or missing. -/
theorem apiRequest_unwraps (p : Platform) (result code : Json)
    (hcode : result.member "code" = some code) :
    (code = Json.num 200 →
      (∀ data : Json, result.member "data" = some data → data.truthy = true →
        apiRequestResult p result = Except.ok data) ∧
      (∀ data : Json, result.member "data" = some data →
        (data = Json.null ∨ data = Json.bool false ∨ data = Json.num 0 ∨
          data = Json.str "") →
        apiRequestResult p result = Except.ok (Json.obj [])) ∧
      (result.member "data" = none →
        apiRequestResult p result = Except.ok (Json.obj []))) ∧
    (code ≠ Json.num 200 →
      (∀ msg : Json, result.member "msg" = some msg → msg.truthy = true →
        apiRequestResult p result = Except.error { message := msg.toText p }) ∧
      (∀ s : String, result.member "msg" = some (Json.str s) → s ≠ "" →
        apiRequestResult p result = Except.error { message := s }) ∧
      (∀ msg : Json, result.member "msg" = some msg →
        (msg = Json.null ∨ msg = Json.bool false ∨ msg = Json.num 0 ∨ msg = Json.str "") →
        apiRequestResult p result =
          Except.error { message := "请求失败，错误码: " ++ code.toText p }) ∧
      (result.member "msg" = none →
        apiRequestResult p result =
          Except.error { message := "请求失败，错误码: " ++ code.toText p })) := by
  have h := apiRequestResult_of_code p result code hcode
  constructor
  · intro h200
    have hs : code.strictEq (Json.num 200) = true := (Json.strictEq_num_iff code 200).2 h200
    rw [hs] at h
    simp only [if_true] at h
    refine ⟨?_, ?_, ?_⟩
    · intro data hd ht
      rw [h, hd]
      simp [Json.orElse, ht]
    · intro data hd hf
      have ht : data.truthy = false := (Json.truthy_eq_false_iff data).2 hf
      rw [h, hd]
      simp [Json.orElse, ht]
    · intro hd
      rw [h, hd]
      rfl
  · intro hne
    have hs : code.strictEq (Json.num 200) = false := by
      cases hc : code.strictEq (Json.num 200) with
      | false => rfl
      | true => exact absurd ((Json.strictEq_num_iff code 200).1 hc) hne
    rw [hs] at h
    simp only [Bool.false_eq_true, if_false] at h
    refine ⟨?_, ?_, ?_, ?_⟩
    · intro msg hm ht
      rw [h, hm]
      simp [Json.orElse, ht]
    · intro s hm hne'
      rw [h, hm]
      simp [Json.orElse, Json.truthy, hne', Json.toText]
    · intro msg hm hf
      have ht : msg.truthy = false := (Json.truthy_eq_false_iff msg).2 hf
      rw [h, hm]
      simp [Json.orElse, ht, Json.toText]
    · intro hm
      rw [h, hm]
      simp [Json.orElse, Json.toText]

/-- Witness of `apiRequest_unwraps`: a response with code 200 and no data gives an empty
object, and a response whose code is the text 200 fails with its msg. -/
theorem apiRequest_unwraps_witness :
    envelopeBare.member "code" = some (Json.num 200) ∧
    envelopeBare.member "data" = none ∧
    apiRequestResult samplePlatform envelopeBare = Except.ok (Json.obj []) ∧
    envelopeTextCode.member "code" = some (Json.str "200") ∧
    envelopeTextCode.member "msg" = some (Json.str "denied") ∧
    apiRequestResult samplePlatform envelopeTextCode =
      Except.error { message := "denied" } :=
  ⟨rfl, rfl,
   ((apiRequest_unwraps samplePlatform envelopeBare (Json.num 200) rfl).1 rfl).2.2 rfl,
   rfl, rfl,
   ((apiRequest_unwraps samplePlatform envelopeTextCode (Json.str "200") rfl).2
      (fun h => Json.noConfusion h)).2.1 "denied" rfl (by decide)⟩

/-! ## Dropping a card -/

theorem strictEq_num_str (n : Int) (s : String) :
    (JsVal.num n).strictEq (JsVal.str s) = false := by
  simp [JsVal.strictEq]

/-- A card dropped on a column whose status is not that of the list holding the card:
the board calls the store, and the store calls the backend, whatever the backend then
answers. -/
theorem drop_on_other_column (response : Except JsError ApiValue) (store : TaskModel)
    (card : Card) (newStatus : JsVal)
    (hother : card.listStatus.strictEq newStatus = false) :
    (TaskBoard.afterDrop response (some card) newStatus store).2 =
      [ApiCall.updateTaskStatus (JsVal.str card.taskId) newStatus] := by
  simp only [TaskBoard.afterDrop, TaskBoard.drop, hother, Bool.false_eq_true, if_false,
    TaskModel.updateTaskStatus]
  cases response with
  | error e => rfl
  | ok v =>
    simp only []
    cases findIndex (JsVal.str card.taskId) store.tasks with
    | none => rfl
    | some i =>
      simp only []
      cases store.tasks[i]? <;> rfl

/-- C23: for every store, every answer the backend would give and every dragged card
(any element of the page with the class `task-card`; `dragstart` accepts all of them). The
board reads the current status of the dragged task off the page: it is the
`data-status` of the list that holds the card. Dropping the card on a column whose
`data-status` is strictly equal to that one returns before any call: no
`updateTaskStatus` goes to the store or the backend, the store is the same and every
task has the status it had. So it is for a task of the store with the status `s` whose
card sits in the list of `s` and is dropped on the column of `s`; and nothing happens
either when no card is being dragged. -/
theorem drop_on_own_column (response : Except JsError ApiValue) (store : TaskModel)
    (card : Card) :
    (∀ newStatus : JsVal, card.listStatus.strictEq newStatus = true →
      TaskBoard.drop response (some card) newStatus store = none ∧
      TaskBoard.afterDrop response (some card) newStatus store = (store, []) ∧
      (TaskBoard.afterDrop response (some card) newStatus store).1.tasks.map Task.status =
        store.tasks.map Task.status) ∧
    (∀ task ∈ store.tasks, ∀ s : String, task.status = JsVal.str s →
      card.listStatus = task.status →
      TaskBoard.drop response (some card) (JsVal.str s) store = none ∧
      TaskBoard.afterDrop response (some card) (JsVal.str s) store = (store, [])) ∧
    (∀ newStatus : JsVal,
      TaskBoard.afterDrop response none newStatus store = (store, [])) := by
  have hA : ∀ newStatus : JsVal, card.listStatus.strictEq newStatus = true →
      TaskBoard.drop response (some card) newStatus store = none := by
    intro newStatus hown
    simp [TaskBoard.drop, hown]
  refine ⟨?_, ?_, ?_⟩
  · intro newStatus hown
    have hd := hA newStatus hown
    refine ⟨hd, ?_, ?_⟩ <;> simp [TaskBoard.afterDrop, hd]
  · intro task _ s hs hl
    have hown : card.listStatus.strictEq (JsVal.str s) = true := by
      rw [hl, hs]
      exact strictEq_self_str s
    have hd := hA (JsVal.str s) hown
    exact ⟨hd, by simp [TaskBoard.afterDrop, hd]⟩
  · intro newStatus
    rfl

/-- Witness of `drop_on_own_column`: the task with id 2 is 待处理, its card sits in the
list of 待处理 and is dropped on the column of 待处理. -/
theorem drop_on_own_column_witness :
    formatTask sampleEnv 1 rawPlain ∈ twoTasks.tasks ∧
    (formatTask sampleEnv 1 rawPlain).status = JsVal.str "待处理" ∧
    TaskBoard.drop (Except.ok (ApiValue.record []))
      (some { taskId := "2", listStatus := JsVal.str "待处理" }) (JsVal.str "待处理")
      twoTasks = none ∧
    TaskBoard.afterDrop (Except.ok (ApiValue.record []))
      (some { taskId := "2", listStatus := JsVal.str "待处理" }) (JsVal.str "待处理")
      twoTasks = (twoTasks, []) :=
  ⟨by decide, by decide,
   (drop_on_own_column (Except.ok (ApiValue.record [])) twoTasks
      { taskId := "2", listStatus := JsVal.str "待处理" }).2.1
      (formatTask sampleEnv 1 rawPlain) (by decide) "待处理" (by decide) (by decide)⟩

/-- When every id in the store is a number, no drop reaches a task: the board passes the
text of `data-task-id`, the store compares it with `===`, and the call fails with
任务不存在 after the backend call, with the store unchanged. -/
theorem drop_fails_for_numeric_ids (v : ApiValue) (card : Card) (newStatus : JsVal)
    (store : TaskModel) (hnum : ∀ task ∈ store.tasks, ∃ n, task.id = JsVal.num n)
    (hother : card.listStatus.strictEq newStatus = false) :
    TaskBoard.afterDrop (Except.ok v) (some card) newStatus store =
      (store, [ApiCall.updateTaskStatus (JsVal.str card.taskId) newStatus]) ∧
    (TaskBoard.drop (Except.ok v) (some card) newStatus store).map (fun o => o.result) =
      some (Except.error { message := "任务不存在" }) := by
  have hno : findIndex (JsVal.str card.taskId) store.tasks = none := by
    apply findIndex_eq_none
    intro task ht
    obtain ⟨n, hn⟩ := hnum task ht
    rw [hn]
    exact strictEq_num_str n card.taskId
  simp [TaskBoard.afterDrop, TaskBoard.drop, hother, TaskModel.updateTaskStatus, hno]

/-- C24 (the code at the failing input): the store holds a task under the numeric id 2
with status 待处理. A card of the page carries that id as `data-task-id`, which is the
text 2, and sits in the list of 待处理. Dropped on the column 进行中 with the backend
accepting the update, the board calls the store with the text 2, which `===` matches to
no task: the backend call is issued, the store's call fails with 任务不存在, and the task
still has status 待处理. The same call with the number 2 as the id succeeds and gives
the task the status 进行中. -/
theorem drop_numeric_id_not_matched :
    formatTask sampleEnv 1 rawPlain ∈ twoTasks.tasks ∧
    (formatTask sampleEnv 1 rawPlain).id = JsVal.num 2 ∧
    (formatTask sampleEnv 1 rawPlain).status = JsVal.str "待处理" ∧
    (JsVal.num 2).toText samplePlatform sampleEnv = "2" ∧
    (TaskBoard.drop (Except.ok (ApiValue.record []))
      (some { taskId := "2", listStatus := JsVal.str "待处理" }) (JsVal.str "进行中")
      twoTasks).map (fun o => (o.succeeded, o.calls, o.model)) =
        some (false, [ApiCall.updateTaskStatus (JsVal.str "2") (JsVal.str "进行中")],
          twoTasks) ∧
    (TaskBoard.drop (Except.ok (ApiValue.record []))
      (some { taskId := "2", listStatus := JsVal.str "待处理" }) (JsVal.str "进行中")
      twoTasks).map (fun o => o.result) = some (Except.error { message := "任务不存在" }) ∧
    (TaskBoard.afterDrop (Except.ok (ApiValue.record []))
      (some { taskId := "2", listStatus := JsVal.str "待处理" }) (JsVal.str "进行中")
      twoTasks).1.tasks.map Task.status = [JsVal.str "已完成", JsVal.str "待处理"] ∧
    (twoTasks.updateTaskStatus (Except.ok (ApiValue.record [])) (JsVal.num 2)
      (JsVal.str "进行中")).succeeded = true ∧
    (twoTasks.updateTaskStatus (Except.ok (ApiValue.record [])) (JsVal.num 2)
      (JsVal.str "进行中")).model.tasks.map Task.status =
        [JsVal.str "已完成", JsVal.str "进行中"] := by
  refine ⟨by decide, by decide, by decide, by decide, by decide, rfl, by decide, by decide,
    by decide⟩

/-! ## Colours after a local edit -/

/-- A task that still has its getters shows the colour mapped to its status, when the
status is a text that is not a key of `Object.prototype`. -/
theorem statusColor_of_accessors (env : Env) (t : Task) (s : String)
    (hacc : t.accessors = true) (hstatus : t.status = JsVal.str s)
    (hkey : s ∉ objectPrototypeKeys) :
    t.get env "statusColor" = mappedStatusColor (JsVal.str s) := by
  have hs : t.props.get "status" = JsVal.str s := hstatus
  have hget : t.get env "statusColor" = statusColorGetter env t.props := by
    simp [Task.get, hacc]
  rw [hget]
  simp only [statusColorGetter, hs, colorLookup, propertyKey]
  by_cases h1 : s = "待处理"
  · subst h1; decide
  · by_cases h2 : s = "进行中"
    · subst h2; decide
    · by_cases h3 : s = "已完成"
      · subst h3; decide
      · by_cases h4 : s = "已延期"
        · subst h4; decide
        · have hlook : statusColors.lookup s = none := by
            have b1 : (s == "待处理") = false := by simpa using h1
            have b2 : (s == "进行中") = false := by simpa using h2
            have b3 : (s == "已完成") = false := by simpa using h3
            have b4 : (s == "已延期") = false := by simpa using h4
            simp [statusColors, List.lookup, b1, b2, b3, b4]
          simp [hlook, hkey, JsVal.orElse, JsVal.truthy, mappedStatusColor, h1, h2, h3, h4]

/-- C25 (the code at the failing input): `updateTask(2, { status: '已完成' })` on the
store of two tasks leaves the task with status 已完成 and with the colour #95a5a6 of
its former status 待处理, while the colour mapped to 已完成 is #2ecc71; and
`updateTask(2, { priority: '高' })` leaves it with priority 高 and the colour #f39c12
of its former priority 中, while the colour mapped to 高 is #e74c3c. Before the edit
both colours are the mapped ones. -/
theorem updateTask_keeps_old_colors :
    twoTasks.tasks.map (fun t => (t.get sampleEnv "status", t.get sampleEnv "statusColor")) =
      [(JsVal.str "已完成", JsVal.str "#2ecc71"), (JsVal.str "待处理", JsVal.str "#95a5a6")] ∧
    (twoTasks.updateTask sampleEnv (JsVal.num 2) statusUpdate).model.tasks.map
        (fun t => (t.get sampleEnv "status", t.get sampleEnv "statusColor")) =
      [(JsVal.str "已完成", JsVal.str "#2ecc71"), (JsVal.str "已完成", JsVal.str "#95a5a6")] ∧
    mappedStatusColor (JsVal.str "已完成") = JsVal.str "#2ecc71" ∧
    (twoTasks.updateTask sampleEnv (JsVal.num 2) priorityUpdate).model.tasks.map
        (fun t => (t.get sampleEnv "priority", t.get sampleEnv "priorityColor")) =
      [(JsVal.str "中", JsVal.str "#f39c12"), (JsVal.str "高", JsVal.str "#f39c12")] ∧
    mappedPriorityColor (JsVal.str "高") = JsVal.str "#e74c3c" := by
  refine ⟨by decide, by decide, by decide, by decide, by decide⟩

/-! ## The request of `createGroup` -/

/-- C26 (the code on every input, and at the failing input): the group store calls
`api.createGroup(name, description)`, whose second parameter is the course id. The
request to POST /group/create has group_name equal to the name, and its course_id is
the description text whenever the description is not empty (1 only when it is
empty): for the name Algebra and the description weekly meeting the body holds
course_id = weekly meeting. On success the returned group is appended to the list. -/
theorem createGroup_course_id_is_description (p : Platform) (env : Env) (storage : Storage)
    (response : Except JsError Json) (name description : String) (newGroup : Json)
    (g : GroupModel) :
    (g.createGroup p env storage response (JsVal.str name) (JsVal.str description)).requests =
      [api.createGroup p env storage (JsVal.str name) (JsVal.str description)
        JsVal.undefined] ∧
    (api.createGroup p env storage (JsVal.str name) (JsVal.str description)
      JsVal.undefined).endpoint = "/group/create" ∧
    (api.createGroup p env storage (JsVal.str name) (JsVal.str description)
      JsVal.undefined).method = "POST" ∧
    ((api.createGroup p env storage (JsVal.str name) (JsVal.str description)
      JsVal.undefined).body.getD []).get "group_name" = JsVal.str name ∧
    ((api.createGroup p env storage (JsVal.str name) (JsVal.str description)
      JsVal.undefined).body.getD []).get "course_id" =
        (if description = "" then JsVal.num 1 else JsVal.str description) ∧
    ((api.createGroup samplePlatform sampleEnv [] (JsVal.str "Algebra")
      (JsVal.str "weekly meeting") JsVal.undefined).body.getD []).get "course_id" =
        JsVal.str "weekly meeting" ∧
    (g.createGroup p env storage (Except.ok newGroup) (JsVal.str name)
      (JsVal.str description)).model.groups = g.groups ++ [newGroup] := by
  refine ⟨?_, rfl, rfl, ?_, ?_, by decide, rfl⟩
  · cases response <;> simp [GroupModel.createGroup]
  · simp [api.createGroup, apiRequest, jsonMembers, JsObj.get, List.lookup]
  · by_cases hd : description = ""
    · subst hd
      simp [api.createGroup, apiRequest, jsonMembers, JsObj.get, List.lookup, JsVal.orElse,
        JsVal.truthy]
    · have hb : (description != "") = true := by simpa [bne_iff_ne] using hd
      simp [api.createGroup, apiRequest, jsonMembers, JsObj.get, List.lookup, JsVal.orElse,
        JsVal.truthy, hd, hb]

/-! ## Subscribing and unsubscribing -/

theorem Listeners.store_of_lookup (ls : Listeners) (event : String) (hs : List Handler)
    (h : ls.lookup event = some hs) : ls.store event hs = ls := by
  induction ls with
  | nil => simp [List.lookup] at h
  | cons entry rest ih =>
    obtain ⟨e0, h0⟩ := entry
    by_cases he : e0 = event
    · subst he
      simp only [List.lookup, beq_self_eq_true, Option.some.injEq] at h
      subst h
      simp [Listeners.store]
    · have hb : (event == e0) = false := by
        rw [beq_eq_false_iff_ne]; exact fun e => he e.symm
      simp only [List.lookup, hb] at h
      simp [Listeners.store, he, ih h]

theorem Listeners.store_store (ls : Listeners) (event : String) (a b : List Handler) :
    (ls.store event a).store event b = ls.store event b := by
  induction ls with
  | nil => simp [Listeners.store]
  | cons entry rest ih =>
    obtain ⟨e0, h0⟩ := entry
    by_cases he : e0 = event
    · simp [Listeners.store, he]
    · simp [Listeners.store, he, ih]

theorem indexOfHandler_append_new (cb : Handler) (hs : List Handler)
    (hnew : ∀ h ∈ hs, h.ident ≠ cb.ident) :
    indexOfHandler cb (hs ++ [cb]) = some hs.length := by
  induction hs with
  | nil => simp [indexOfHandler]
  | cons h rest ih =>
    have h0 : h.ident ≠ cb.ident := hnew h (List.mem_cons_self _ _)
    have hr := ih (fun x hx => hnew x (List.mem_cons_of_mem _ hx))
    simp [indexOfHandler, h0, hr]

theorem indexOfHandler_append_old (cb : Handler) (hs : List Handler) (i : Nat)
    (hold : indexOfHandler cb hs = some i) :
    indexOfHandler cb (hs ++ [cb]) = some i ∧ i < hs.length := by
  induction hs generalizing i with
  | nil => simp [indexOfHandler] at hold
  | cons h rest ih =>
    by_cases h0 : h.ident = cb.ident
    · have hi : i = 0 := by simpa [indexOfHandler, h0] using hold.symm
      subst hi
      simp [indexOfHandler, h0]
    · cases hr : indexOfHandler cb rest with
      | none => simp [indexOfHandler, h0, hr] at hold
      | some j =>
        have hi : j + 1 = i := by simpa [indexOfHandler, h0, hr] using hold
        subst hi
        obtain ⟨h1, h2⟩ := ih j hr
        simp [indexOfHandler, h0, h1, h2]

theorem eraseIdx_length_append_singleton (hs : List Handler) (cb : Handler) :
    (hs ++ [cb]).eraseIdx hs.length = hs := by
  induction hs with
  | nil => rfl
  | cons h rest ih => simp [ih]

/-- C27 (counterexample): with the callbacks 1 and 2 registered for tasks:updated,
`on(event, cb)` followed by `off(event, cb)` for the callback 1 leaves the list 2, 1:
`off` removes the first registration of the callback, not the one just added, and the
order of delivery has changed. -/
theorem on_off_reorders :
    Listeners.onThenOff [("tasks:updated", [quietHandler, raisingHandler])] "tasks:updated"
        quietHandler =
      Except.ok [("tasks:updated", [raisingHandler, quietHandler])] ∧
    [("tasks:updated", [raisingHandler, quietHandler])] ≠
      ([("tasks:updated", [quietHandler, raisingHandler])] : Listeners) := by
  exact ⟨rfl, by decide⟩

/-- C27 (amended): for an event that has a listener list, `on(event, cb)` followed by
`off(event, cb)` restores the listener table exactly when `cb` is not yet registered
for the event; when `cb` is already registered, its first registration is removed
and the new one stays at the end. For an event without a list, whose name is not a
key of `Object.prototype`, an empty list is left, to which nothing is delivered. -/
theorem on_off_restores_when_new (ls : Listeners) (event : String) (cb : Handler)
    (hs : List Handler) :
    (ls.lookup event = some hs → (∀ h ∈ hs, h.ident ≠ cb.ident) →
      ls.onThenOff event cb = Except.ok ls) ∧
    (ls.lookup event = some hs → ∀ i, indexOfHandler cb hs = some i →
      ls.onThenOff event cb = Except.ok (ls.store event (hs.eraseIdx i ++ [cb]))) ∧
    (ls.lookup event = none → event ∉ objectPrototypeKeys →
      ls.onThenOff event cb = Except.ok (ls.store event []) ∧
      (ls.store event []).read event = ListenerSlot.list []) := by
  refine ⟨?_, ?_, ?_⟩
  · intro hl hnew
    have hread : ls.read event = ListenerSlot.list hs := by simp [Listeners.read, hl]
    have hidx := indexOfHandler_append_new cb hs hnew
    simp only [Listeners.onThenOff, Listeners.on, hread, Listeners.off,
      Listeners.read_store_same, hidx, eraseIdx_length_append_singleton,
      Listeners.store_store]
    rw [Listeners.store_of_lookup ls event hs hl]
  · intro hl i hold
    have hread : ls.read event = ListenerSlot.list hs := by simp [Listeners.read, hl]
    obtain ⟨hidx, hlt⟩ := indexOfHandler_append_old cb hs i hold
    simp only [Listeners.onThenOff, Listeners.on, hread, Listeners.off,
      Listeners.read_store_same, hidx, Listeners.store_store]
    rw [List.eraseIdx_append_of_lt_length hlt]
  · intro hl hkey
    have hread : ls.read event = ListenerSlot.absent := by simp [Listeners.read, hl, hkey]
    have hidx : indexOfHandler cb [cb] = some 0 := by simp [indexOfHandler]
    refine ⟨?_, Listeners.read_store_same ls event []⟩
    simp only [Listeners.onThenOff, Listeners.on, hread, Listeners.off,
      Listeners.read_store_same, hidx, Listeners.store_store]
    rfl

/-- Witness of `on_off_restores_when_new`: the callback 2 is new to a list that holds
the callback 1, the callback 1 is not, and user:login has no list. -/
theorem on_off_restores_when_new_witness :
    (([("tasks:updated", [quietHandler])] : Listeners).lookup "tasks:updated" =
        some [quietHandler] ∧
      (∀ h ∈ [quietHandler], h.ident ≠ raisingHandler.ident) ∧
      Listeners.onThenOff [("tasks:updated", [quietHandler])] "tasks:updated" raisingHandler =
        Except.ok [("tasks:updated", [quietHandler])]) ∧
    (indexOfHandler quietHandler [quietHandler] = some 0 ∧
      Listeners.onThenOff [("tasks:updated", [quietHandler])] "tasks:updated" quietHandler =
        Except.ok (Listeners.store [("tasks:updated", [quietHandler])] "tasks:updated"
          ([quietHandler].eraseIdx 0 ++ [quietHandler]))) ∧
    (([("tasks:updated", [quietHandler])] : Listeners).lookup "user:login" = none ∧
      "user:login" ∉ objectPrototypeKeys ∧
      Listeners.onThenOff [("tasks:updated", [quietHandler])] "user:login" quietHandler =
        Except.ok (Listeners.store [("tasks:updated", [quietHandler])] "user:login" [])) :=
  ⟨⟨by decide, by decide,
    (on_off_restores_when_new [("tasks:updated", [quietHandler])] "tasks:updated"
      raisingHandler [quietHandler]).1 (by decide) (by decide)⟩,
   ⟨by decide,
    (on_off_restores_when_new [("tasks:updated", [quietHandler])] "tasks:updated"
      quietHandler [quietHandler]).2.1 (by decide) 0 (by decide)⟩,
   ⟨by decide, by decide,
    ((on_off_restores_when_new [("tasks:updated", [quietHandler])] "user:login"
      quietHandler []).2.2 (by decide) (by decide)).1⟩⟩

end StudyGroup
